import Mathlib

/-!
# Verification of the WhiteMetal-State signal-to-backtest core

Shallow embedding of the repository's core modules:

* `engine/events/cycles.py` — turning-point detection and cycle segmentation
* `engine/events/detector.py` — market-state event rules
* `engine/decision/engine.py` — decision-gating cascade
* `engine/backtest/trade_engine.py` — trade simulation state machine
* `engine/backtest/performance.py` — scoring and performance summaries
* `engine/backtest/walkforward.py` — walk-forward validation

Modelling conventions, applied uniformly:

* Python floats are modelled as exact rationals (`ℚ`); the display-only
  `round(x, n)` calls are modelled as the identity.
* Python `None` / missing dict keys are modelled with `Option`; Python
  truthiness (`if x:`) is modelled explicitly (`none` and `some 0` are falsy
  for numbers, `""` is falsy for strings).
* `statistics.pstdev` (a square root) appears in the sources only inside
  comparisons; those comparisons are encoded exactly by squaring, which is
  equivalent because the population variance is nonnegative (bridging lemmas
  relate the encodings to `Real.sqrt`).
* `math.atan` and float `sqrt` used inside `compute_algorithm_score` are
  abstracted as explicit function parameters; no property of them is assumed.
* Wall-clock timestamps (`datetime.utcnow`) and JSON payload envelopes are
  not modelled; the values flowing through them are.
-/

namespace WhiteMetal

/-- A price bar as consumed by the core: only `date` and `close` are read by
the cycle segmenter and the trade engine. -/
structure PriceRow where
  date : String
  close : ℚ
  deriving Repr, DecidableEq

/-- `engine/events/cycles.py`: `TurningPoint` dataclass (`index`, `kind` with
kind one of `"peak"`/`"trough"`). -/
structure TurningPoint where
  index : ℕ
  kind : String
  deriving Repr, DecidableEq

/-- `engine/events/cycles.py`: `CycleSegment` dataclass. -/
structure CycleSegment where
  start_idx : ℕ
  end_idx : ℕ
  start_date : String
  end_date : String
  direction : String
  length : ℕ
  amplitude : ℚ
  start_close : ℚ
  end_close : ℚ
  deriving Repr, DecidableEq

/-- Day-over-day deltas `[closes[i] - closes[i-1] for i in range(1, len(closes))]`. -/
def deltasOf (closes : List ℚ) : List ℚ :=
  List.zipWith (fun a b => b - a) closes closes.tail

/-- The scan loop of `_find_turning_points`: iterate the remaining deltas with
their bar index, carrying the previous nonzero delta (`prev_delta`); a
positive-to-negative flip emits a peak, negative-to-positive a trough, zero
deltas are skipped without updating the carried slope. -/
def findTPAux (prevDelta : ℚ) (idx : ℕ) : List ℚ → List TurningPoint
  | [] => []
  | d :: rest =>
    if d = 0 then findTPAux prevDelta (idx + 1) rest
    else if 0 < prevDelta ∧ d < 0 then ⟨idx, "peak"⟩ :: findTPAux d (idx + 1) rest
    else if prevDelta < 0 ∧ 0 < d then ⟨idx, "trough"⟩ :: findTPAux d (idx + 1) rest
    else findTPAux d (idx + 1) rest

/-- `engine/events/cycles.py` `_find_turning_points`: initialize `prev_delta`
with the first nonzero delta, then scan `deltas[1:]` starting at index 1. -/
def findTurningPoints (closes : List ℚ) : List TurningPoint :=
  let deltas := deltasOf closes
  match deltas.find? (fun d => decide (d ≠ 0)) with
  | none => []
  | some prev => findTPAux prev 1 (deltas.drop 1)

/-- One segment between two alternating turning points, as built inside the
`detect_cycles` loop (list lookups use `getD`; the generating indices are
in bounds for every turning point `_find_turning_points` produces). -/
def mkSegment (closes : List ℚ) (dates : List String) (prev curr : TurningPoint) :
    CycleSegment :=
  let startClose := closes.getD prev.index 0
  let endClose := closes.getD curr.index 0
  { start_idx := prev.index
    end_idx := curr.index
    start_date := dates.getD prev.index ""
    end_date := dates.getD curr.index ""
    direction := if prev.kind = "trough" ∧ curr.kind = "peak" then "upswing" else "downswing"
    length := curr.index - prev.index
    amplitude := (endClose - startClose) / startClose
    start_close := startClose
    end_close := endClose }

/-- The `for prev, curr in zip(turning_points, turning_points[1:])` loop of
`detect_cycles`: consecutive same-kind turning points are skipped, alternating
pairs are turned into segments. -/
def buildSegments (closes : List ℚ) (dates : List String) :
    List TurningPoint → List CycleSegment
  | prev :: curr :: rest =>
    (if prev.kind = curr.kind then [] else [mkSegment closes dates prev curr]) ++
      buildSegments closes dates (curr :: rest)
  | _ => []

/-- `engine/events/cycles.py` `detect_cycles`. -/
def detectCycles (prices : List PriceRow) : List CycleSegment × List TurningPoint :=
  if prices.length < 3 then ([], [])
  else
    let closes := prices.map (·.close)
    let dates := prices.map (·.date)
    let tps := findTurningPoints closes
    (buildSegments closes dates tps, tps)

/-- Modelled from the spec: `filter_cycles` is imported by the decision engine
from `engine.events.cycles`, but its definition is absent from the provided
sources.  The spec describes it as keeping only segments of at least the given
minimum length ("cycles filtered to length ≥ 2"; "Filtering by minimum length
is a separate, optional post-pass (never fabricates or merges segments)"). -/
def filterCycles (cycles : List CycleSegment) (minLength : ℕ) : List CycleSegment :=
  cycles.filter (fun c => decide (minLength ≤ c.length))

/-- Python `min` over a list (total: 0 for the empty list, which the sources
always guard against). -/
def listMin (l : List ℚ) : ℚ :=
  match l with
  | [] => 0
  | x :: xs => xs.foldl min x

/-- Python `max` over a list (total: 0 for the empty list). -/
def listMax (l : List ℚ) : ℚ :=
  match l with
  | [] => 0
  | x :: xs => xs.foldl max x

/-- `statistics.mean` (total: 0 for the empty list). -/
def meanQ (l : List ℚ) : ℚ := l.sum / l.length

/-- The square of `statistics.pstdev`: the population variance.  The sources
use `pstdev` only inside comparisons, which are encoded by squaring. -/
def popVar (l : List ℚ) : ℚ :=
  (l.map (fun x => (x - meanQ l) ^ 2)).sum / l.length

/-- Python `xs[-n:]`. -/
def takeLast {α : Type} (n : ℕ) (l : List α) : List α := l.drop (l.length - n)

/-- `engine/events/detector.py`: `Event` dataclass. -/
structure Event where
  name : String
  confidence : ℚ
  rationale : String
  deriving Repr, DecidableEq

/-- `closes[-1]`, the latest close (`getLastD`; the source raises on an empty
history, which the theorems exclude). -/
def latestClose (closes : List ℚ) : ℚ := closes.getLastD 0

/-- `detect_events`' trailing window `closes[:-1][-n:]`: the last `n` closes
strictly before the latest bar. -/
def trailingWindow (n : ℕ) (closes : List ℚ) : List ℚ := takeLast n closes.dropLast

/-- `detect_events`' `baseline_low5`: minimum of the trailing 5-day window,
falling back to the window including the latest bar when no history precedes
it. -/
def baselineLow5 (closes : List ℚ) : ℚ :=
  if trailingWindow 5 closes ≠ [] then listMin (trailingWindow 5 closes)
  else listMin (takeLast 5 closes)

/-- `detect_events`' `baseline_high20` with the same fallback shape. -/
def baselineHigh20 (closes : List ℚ) : ℚ :=
  if trailingWindow 20 closes ≠ [] then listMax (trailingWindow 20 closes)
  else listMax (takeLast 20 closes)

/-- The square of `detect_events`' `volatility5`
(`pstdev(trailing5) if len(trailing5) > 1 else 0.0`). -/
def vol5Sq (closes : List ℚ) : ℚ :=
  if 1 < (trailingWindow 5 closes).length then popVar (trailingWindow 5 closes) else 0

/-- The square of `detect_events`' `volatility20`. -/
def vol20Sq (closes : List ℚ) : ℚ :=
  if 1 < (trailingWindow 20 closes).length then popVar (trailingWindow 20 closes) else 0

/-- The SHAKEOUT rule `latest_close <= baseline_low5 - 0.5 * volatility5`,
encoded exactly by squaring (equivalent because `volatility5^2 = vol5Sq ≥ 0`;
see the bridging lemma relating it to `Real.sqrt`). -/
def shakeoutCond (closes : List ℚ) : Prop :=
  0 ≤ baselineLow5 closes - latestClose closes ∧
    vol5Sq closes ≤ 4 * (baselineLow5 closes - latestClose closes) ^ 2

instance (closes : List ℚ) : Decidable (shakeoutCond closes) := by
  unfold shakeoutCond; infer_instance

/-- The DISTRIBUTION_RISK rule
`latest_close < baseline_low5 - volatility5`, squared encoding. -/
def distRiskCond (closes : List ℚ) : Prop :=
  0 < baselineLow5 closes - latestClose closes ∧
    vol5Sq closes < (baselineLow5 closes - latestClose closes) ^ 2

instance (closes : List ℚ) : Decidable (distRiskCond closes) := by
  unfold distRiskCond; infer_instance

/-- The RECLAIM rule `latest_close > baseline_high20 + 0.5 * volatility20`,
squared encoding. -/
def reclaimCond (closes : List ℚ) : Prop :=
  0 < latestClose closes - baselineHigh20 closes ∧
    vol20Sq closes < 4 * (latestClose closes - baselineHigh20 closes) ^ 2

instance (closes : List ℚ) : Decidable (reclaimCond closes) := by
  unfold reclaimCond; infer_instance

/-- The RANGE_ACCUMULATION rule
`latest_close > mean(window20) and latest_close > min(window5)` (these use the
windows that include the latest bar, as in the source). -/
def rangeAccumCond (closes : List ℚ) : Prop :=
  meanQ (takeLast 20 closes) < latestClose closes ∧
    listMin (takeLast 5 closes) < latestClose closes

instance (closes : List ℚ) : Decidable (rangeAccumCond closes) := by
  unfold rangeAccumCond; infer_instance

/-- `engine/events/detector.py` `detect_events`. -/
def detectEvents (closes : List ℚ) : List Event :=
  let events :=
    (if shakeoutCond closes then
      [Event.mk "SHAKEOUT" (62/100)
        "Close undercut the 5-day low by more than a 0.5σ volatility filter, a common shakeout signature."]
     else []) ++
    (if distRiskCond closes then
      [Event.mk "DISTRIBUTION_RISK" (55/100)
        "Close slipped more than 1σ below the 5-day low, reinforcing distribution risk."]
     else []) ++
    (if reclaimCond closes then
      [Event.mk "RECLAIM" (68/100)
        "Close cleared the 20-day high by over 0.5σ of rolling volatility, confirming reclaim momentum."]
     else []) ++
    (if rangeAccumCond closes then
      [Event.mk "RANGE_ACCUMULATION" (50/100)
        "Staying above the 20-day mean while basing near highs."]
     else [])
  if events = [] then
    [Event.mk "NEUTRAL" (40/100) "No clear pattern detected in the latest window."]
  else events

/-- `engine/decision/engine.py` `ACTIONS`. -/
def ACTIONS : List String := ["BUY", "ADD", "HOLD", "REDUCE", "WAIT"]

/-- `engine/decision/engine.py` `ACTION_BY_EVENT` (`dict.get` with default
`"WAIT"`). -/
def actionByEvent (name : String) : String :=
  if name = "SHAKEOUT" then "BUY"
  else if name = "RECLAIM" then "ADD"
  else if name = "RANGE_ACCUMULATION" then "HOLD"
  else if name = "DISTRIBUTION_RISK" then "REDUCE"
  else if name = "NEUTRAL" then "WAIT"
  else "WAIT"

/-- The loosely-typed `indicator_context` mapping: absent keys are `none`. -/
structure IndicatorContext where
  latestRsi : Option ℚ := none
  latestMacd : Option ℚ := none
  latestMacdHist : Option ℚ := none
  macdImproving : Option Bool := none
  regime : Option String := none
  regimeNote : Option String := none
  deriving Repr, DecidableEq

/-- The `cycle_context` mapping built by `_analyze_cycle_context`: the keys
only present in the non-empty branch are `Option`-valued. -/
structure CycleContext where
  bias : String
  note : String
  filteredCycleCount : ℕ
  rawCycleCount : ℕ
  latestDirection : Option String := none
  latestLength : Option ℕ := none
  latestAmplitude : Option ℚ := none
  avgUpLength : Option ℚ := none
  avgUpAmplitude : Option ℚ := none
  avgDownLength : Option ℚ := none
  avgDownAmplitude : Option ℚ := none
  avgMagnitude : Option ℚ := none
  referenceMagnitude : Option ℚ := none
  lowAmplitudeCutoff : Option ℚ := none
  highAmplitudeCutoff : Option ℚ := none
  amplitudeFlag : Option String := none
  deriving Repr, DecidableEq

/-- `_analyze_cycle_context`'s local `_avg` helper (`round` modelled as the
identity). -/
def avgOr (values : List ℚ) (fallback : ℚ) : ℚ :=
  if values ≠ [] then meanQ values else fallback

/-- `engine/decision/engine.py` `_analyze_cycle_context`. -/
def analyzeCycleContext (cycles : List CycleSegment) (rawCycleCount : ℕ) : CycleContext :=
  match cycles.getLast? with
  | none =>
    { bias := "neutral"
      note := "No completed cycles detected after filtering; keep event-driven stance."
      filteredCycleCount := 0
      rawCycleCount := rawCycleCount }
  | some latest =>
    let upCycles := cycles.filter (fun c => decide (c.direction = "upswing"))
    let downCycles := cycles.filter (fun c => decide (c.direction = "downswing"))
    let avgUpLength := avgOr (upCycles.map (fun c => (c.length : ℚ))) latest.length
    let avgUpAmplitude := avgOr (upCycles.map (·.amplitude)) latest.amplitude
    let avgDownLength := avgOr (downCycles.map (fun c => (c.length : ℚ))) latest.length
    let avgDownAmplitude := avgOr (downCycles.map (fun c => |c.amplitude|)) |latest.amplitude|
    let avgMagnitude := avgOr (cycles.map (fun c => |c.amplitude|)) |latest.amplitude|
    let referenceMagnitude := max (min avgMagnitude (1/100)) (47/10000)
    let lowAmplitudeCutoff := max (2/1000) (referenceMagnitude * (6/10))
    let highAmplitudeCutoff := max (referenceMagnitude * (14/10)) (7/1000)
    let amplitudeFlag :=
      if |latest.amplitude| < lowAmplitudeCutoff then "low"
      else if highAmplitudeCutoff < |latest.amplitude| then "high"
      else "normal"
    let maturedUpswing :=
      latest.direction = "upswing" ∧ avgUpLength * (12/10) ≤ (latest.length : ℚ) ∧
        avgUpAmplitude * (11/10) ≤ latest.amplitude
    let shallowDownswing :=
      latest.direction = "downswing" ∧ (latest.length : ℚ) ≤ max 2 (avgDownLength * (8/10)) ∧
        |latest.amplitude| ≤ max (avgDownAmplitude * (75/100)) (1/100)
    let bias :=
      if maturedUpswing then "mature_upswing"
      else if shallowDownswing then "shallow_downswing"
      else "neutral"
    let biasNote :=
      if maturedUpswing then
        "Late-stage upswing with extended length/amplitude; favor taking risk off."
      else if shallowDownswing then
        "Downswing is young and shallow; avoid reactionary reductions."
      else "Cycle posture is neutral; follow event guidance."
    let ampNote :=
      if amplitudeFlag = "low" then
        [" Latest cycle amplitude is muted; stand down until volatility expands beyond the low cutoff."]
      else if amplitudeFlag = "high" then
        [" Latest cycle amplitude is elevated versus average; conviction trades can be sized up."]
      else []
    { bias := bias
      note := String.join (biasNote :: ampNote)
      filteredCycleCount := cycles.length
      rawCycleCount := rawCycleCount
      latestDirection := some latest.direction
      latestLength := some latest.length
      latestAmplitude := some latest.amplitude
      avgUpLength := some avgUpLength
      avgUpAmplitude := some avgUpAmplitude
      avgDownLength := some avgDownLength
      avgDownAmplitude := some avgDownAmplitude
      avgMagnitude := some avgMagnitude
      referenceMagnitude := some referenceMagnitude
      lowAmplitudeCutoff := some lowAmplitudeCutoff
      highAmplitudeCutoff := some highAmplitudeCutoff
      amplitudeFlag := some amplitudeFlag }

/-- Python truthiness of an optional Bool (`None` and `False` are falsy). -/
def boolTruthy : Option Bool → Bool
  | some b => b
  | none => false

/-- Python truthiness of an optional string (`None` and `""` are falsy). -/
def strTruthy : Option String → Bool
  | some s => s ≠ ""
  | none => false

/-- Python truthiness of an optional number (`None` and `0` are falsy). -/
def numTruthy : Option ℚ → Bool
  | some v => v ≠ 0
  | none => false

/-- `engine/decision/engine.py` `_apply_indicator_filters`.  Returns the
(action, rationale) pair; rationale fragments are joined with spaces as the
source's `" ".join` does (empty fragments never occur here). -/
def applyIndicatorFilters (action : String) (primary : Event)
    (ictx : Option IndicatorContext) : String × String :=
  if action ∉ ACTIONS then
    ("WAIT", "Unrecognized base action; defaulting to WAIT. " ++ primary.rationale)
  else
    match ictx with
    | none => (action, primary.rationale ++ " Technical filters unavailable; keeping event action.")
    | some ctx =>
      let rsi := ctx.latestRsi
      let macd := ctx.latestMacd
      let macdHist := ctx.latestMacdHist
      let macdImproving := ctx.macdImproving
      let regime := ctx.regime
      let notes0 := [primary.rationale] ++ (if strTruthy ctx.regimeNote then [ctx.regimeNote.getD ""] else [])
      let buyRsiThreshold : ℚ :=
        if regime = some "uptrend" then 45
        else if regime = some "downtrend" then 28
        else if regime = some "range" ∨ regime = some "neutral" then 32
        else 30
      let sellRsiThreshold : ℚ :=
        if regime = some "uptrend" then 75
        else if regime = some "downtrend" then 60
        else if regime = some "range" ∨ regime = some "neutral" then 68
        else 70
      let regimeNotes :=
        if regime = some "uptrend" then
          ["Regime: uptrend; loosening long triggers and delaying sells."]
        else if regime = some "downtrend" then
          ["Regime: downtrend; demanding stronger momentum to buy and quicker risk-off."]
        else if regime = some "range" ∨ regime = some "neutral" then
          ["Regime: range/neutral; biasing toward mean-reversion gates."]
        else []
      let notes1 := notes0 ++ regimeNotes
      let oversold : Bool := match rsi with
        | some r => decide (r < buyRsiThreshold)
        | none => false
      let buyStage : String × List String :=
        if primary.name = "SHAKEOUT" ∧ action = "BUY" then
          if regime = some "downtrend" then
            if oversold && boolTruthy macdImproving then
              (action, ["BUY confirmed with RSI deeply sold and MACD firming inside downtrend."])
            else
              ("WAIT", ["BUY gated in downtrend until RSI is washed out and MACD momentum improves."])
          else
            if oversold || boolTruthy macdImproving then
              (action,
                [(if oversold then "BUY confirmed by RSI oversold filter."
                  else "BUY confirmed by MACD momentum improving filter.")])
            else
              ("WAIT",
                ["BUY gated until RSI < " ++ toString buyRsiThreshold ++
                  " or MACD momentum improves to reduce false triggers."])
        else (action, [])
      let action1 := buyStage.1
      let notes2 := notes1 ++ buyStage.2
      let overbought : Bool := match rsi with
        | some r => decide (sellRsiThreshold < r)
        | none => false
      let macdNegative : Bool :=
        (match macd with | some m => decide (m < 0) | none => false) ||
        (match macdHist with | some h => decide (h < 0) | none => false)
      let sellStage : String × List String :=
        if primary.name = "DISTRIBUTION_RISK" ∧ action1 = "REDUCE" then
          if decide (regime = some "uptrend") && ! macdNegative then
            if overbought then
              (action1, ["SELL/REDUCE confirmed by stretched RSI despite uptrend support."])
            else
              ("HOLD", ["Uptrend regime; deferring sell until RSI is extended or MACD turns negative."])
          else if overbought || macdNegative then
            (action1,
              [(if overbought then "SELL/REDUCE confirmed by RSI overbought filter."
                else "SELL/REDUCE confirmed by MACD negative bias filter.")])
          else
            ("HOLD",
              ["SELL/REDUCE deferred until RSI > " ++ toString sellRsiThreshold ++
                " or MACD turns negative to avoid whipsaws."])
        else (action1, [])
      (sellStage.1, String.intercalate " " (notes2 ++ sellStage.2))

/-- `engine/decision/engine.py` `_apply_cycle_bias`. -/
def applyCycleBias (action : String) (rationale : String) (ctx : CycleContext) :
    String × String :=
  if action ∉ ACTIONS then
    ("WAIT", "Unrecognized base action; defaulting to WAIT. " ++ rationale)
  else
    let biasStage : String × List String :=
      if ctx.bias = "mature_upswing" ∧ action ∈ ["BUY", "ADD", "HOLD", "WAIT"] then
        ("REDUCE", ["Cycle maturity suggests tightening risk, elevating reduce/sell threshold."])
      else if ctx.bias = "shallow_downswing" ∧ action = "REDUCE" then
        ("HOLD", ["Early shallow downswing detected; pausing reductions to confirm trend."])
      else (action, [ctx.note])
    let action1 := biasStage.1
    let ampStage : String × List String :=
      if ctx.amplitudeFlag = some "low" then
        ("WAIT",
          ["Cycle amplitude (" ++ toString (ctx.latestAmplitude.getD 0) ++
            ") is below the trade filter (" ++ toString (ctx.lowAmplitudeCutoff.getD 0) ++
            "); deferring trades until swings expand."])
      else if ctx.amplitudeFlag = some "high" ∧ ctx.latestDirection = some "upswing" ∧
          action1 ∈ ["BUY", "ADD", "HOLD"] then
        ("ADD",
          ["High-amplitude upswing (" ++ toString (ctx.latestAmplitude.getD 0) ++ ") above " ++
            toString (ctx.highAmplitudeCutoff.getD 0) ++
            "; leaning into long exposure with a larger add."])
      else (action1, [])
    (ampStage.1,
      String.intercalate " "
        (((rationale :: biasStage.2) ++ ampStage.2).filter (fun n => decide (n ≠ ""))))

/-- The decision payload of `select_action` (the wall-clock `timestamp` field
and the echoing of the raw `indicator_context` are not modelled). -/
structure Decision where
  action : String
  marketState : String
  confidence : ℚ
  rationale : String
  cycleContext : CycleContext
  activeEvents : List Event
  deriving Repr, DecidableEq

/-- `engine/decision/engine.py` `select_action`.  Python's stable
`sorted(events, key=confidence, reverse=True)` is modelled by a stable merge
sort taking the higher-confidence event first; `prioritized[0]` raises on an
empty event list, modelled by `none`. -/
def selectAction (events : List Event) (cycles : List CycleSegment)
    (ictx : Option IndicatorContext) : Option Decision :=
  let prioritized := events.mergeSort (fun a b => decide (b.confidence ≤ a.confidence))
  match prioritized with
  | [] => none
  | primary :: _ =>
    let baseAction := actionByEvent primary.name
    let filteredCycles := filterCycles cycles 2
    let cycleContext := analyzeCycleContext filteredCycles cycles.length
    let step1 := applyIndicatorFilters baseAction primary ictx
    let step2 := applyCycleBias step1.1 step1.2 cycleContext
    some
      { action := step2.1
        marketState := primary.name
        confidence := primary.confidence
        rationale := step2.2
        cycleContext := cycleContext
        activeEvents := prioritized }

/-- `engine/backtest/performance.py` `_clamp` with its default `[0, 1]` range. -/
def clamp01 (value : ℚ) : ℚ := max 0 (min 1 value)

/-- `engine/backtest/performance.py` `PerformanceSummary` dataclass. -/
structure PerformanceSummary where
  hitRate : ℚ
  avgReturn5d : ℚ
  avgReturn10d : ℚ
  maxDrawdown : ℚ
  deriving Repr, DecidableEq

/-- `engine/backtest/performance.py` `AlgorithmScore` dataclass (the raw
Sharpe-style quotient field is named `sharpeQuot` here). -/
structure AlgorithmScore where
  composite : ℚ
  hitRate : ℚ
  sharpeQuot : ℚ
  cycleCaptureRate : ℚ
  deriving Repr, DecidableEq

/-- Day-over-day percentage changes `(closes[i+1]-closes[i])/closes[i]`,
shared by `summarize_returns` and `compute_algorithm_score`. -/
def pctChanges (closes : List ℚ) : List ℚ :=
  List.zipWith (fun a b => (b - a) / a) closes closes.tail

/-- Forward returns over a fixed horizon `h`:
`[(closes[i+h]-closes[i])/closes[i] for i in range(len(closes)-h)]`. -/
def horizonReturns (closes : List ℚ) (h : ℕ) : List ℚ :=
  (List.range (closes.length - h)).map
    (fun i => (closes.getD (i + h) 0 - closes.getD i 0) / closes.getD i 0)

/-- `engine/backtest/performance.py` `summarize_returns`. -/
def summarizeReturns (closes : List ℚ) : PerformanceSummary :=
  if closes.length < 12 then
    { hitRate := 1/2, avgReturn5d := 0, avgReturn10d := 0, maxDrawdown := 0 }
  else
    let changes := pctChanges closes
    let positives := changes.filter (fun c => decide (0 < c))
    let hitRate := (positives.length : ℚ) / changes.length
    let horizon5 := horizonReturns closes 5
    let horizon10 := horizonReturns closes 10
    let maxDrawdown := if horizon10 ≠ [] then listMin horizon10 else listMin changes
    { hitRate := hitRate
      avgReturn5d := horizon5.sum / horizon5.length
      avgReturn10d := horizon10.sum / horizon10.length
      maxDrawdown := maxDrawdown }

/-- `engine/backtest/performance.py` `_normalized_sharpe`, parametric in the
float `math.atan` (abstracted as `atanF`; no property of it is used).  The
source divides `atan(raw)` by the literal `3.14159`. -/
def normalizedSharpe (atanF : ℚ → ℚ) (meanRet stddev : ℚ) : ℚ :=
  if stddev = 0 then 0
  else clamp01 (1/2 + atanF (meanRet / stddev) / (314159/100000))

/-- Python list indexing `closes[i]` with negative-index wraparound, as
exercised by `_cycle_capture_rate` (its guards keep `i` within
`[-len, len)`). -/
def pyGet (l : List ℚ) (i : ℤ) : ℚ :=
  if 0 ≤ i then l.getD i.toNat 0 else l.getD (l.length - (-i).toNat) 0

/-- `_cycle_capture_rate`'s `entry_idx` before the degenerate-window
adjustment: `min(cycle.end_idx - 1, cycle.start_idx + max(1, cycle.length // 3))`
(in ℤ, since `end_idx - 1` can be `-1` in Python). -/
def captureEntryIdx0 (cycle : CycleSegment) : ℤ :=
  min ((cycle.end_idx : ℤ) - 1) ((cycle.start_idx : ℤ) + (max 1 (cycle.length / 3) : ℕ))

/-- `_cycle_capture_rate`'s `entry_idx` after the
`if entry_idx >= exit_idx: entry_idx = cycle.start_idx` adjustment. -/
def captureEntryIdx (cycle : CycleSegment) : ℤ :=
  if (cycle.end_idx : ℤ) ≤ captureEntryIdx0 cycle then (cycle.start_idx : ℤ)
  else captureEntryIdx0 cycle

/-- One iteration of the `_cycle_capture_rate` loop: `none` models `continue`,
`some r` an appended clamped capture fraction. -/
def captureFrac (closes : List ℚ) (cycle : CycleSegment) : Option ℚ :=
  if (closes.length : ℤ) ≤ (cycle.start_idx : ℤ) ∨
      (closes.length : ℤ) - 1 < (cycle.end_idx : ℤ) then none
  else if cycle.amplitude = 0 then none
  else if (cycle.end_idx : ℤ) ≤ captureEntryIdx cycle ∨
      (closes.length : ℤ) ≤ (cycle.end_idx : ℤ) then none
  else
    some (clamp01
      (|(pyGet closes (cycle.end_idx : ℤ) - pyGet closes (captureEntryIdx cycle)) /
          pyGet closes (captureEntryIdx cycle)| / |cycle.amplitude|))

/-- `engine/backtest/performance.py` `_cycle_capture_rate`. -/
def cycleCaptureRate (closes : List ℚ) (cycles : List CycleSegment) : ℚ :=
  if closes = [] ∨ cycles = [] then 0
  else
    let capturedFracs := cycles.filterMap (captureFrac closes)
    if capturedFracs = [] then 0 else capturedFracs.sum / capturedFracs.length

/-- A caller-supplied `weights` mapping for `compute_algorithm_score`:
each of the three recognized keys may be absent (`none`). -/
structure ScoreWeights where
  hitRate : Option ℚ := none
  sharpeWeight : Option ℚ := none
  cycleCapture : Option ℚ := none
  deriving Repr, DecidableEq

/-- `engine/backtest/performance.py` `DEFAULT_SCORE_WEIGHTS` as the triple
(hit_rate, sharpe, cycle_capture). -/
def DEFAULT_SCORE_WEIGHTS : ℚ × ℚ × ℚ := (4/10, 35/100, 25/100)

/-- The normalization core of `_normalize_score_weights` on the overridden
base triple: sum the positive entries and divide (falling back to the
defaults when that sum is ≤ 0). -/
def normalizeScoreWeightsCore (b1 b2 b3 : ℚ) : ℚ × ℚ × ℚ :=
  let total := (if 0 < b1 then b1 else 0) + (if 0 < b2 then b2 else 0) +
    (if 0 < b3 then b3 else 0)
  if total ≤ 0 then DEFAULT_SCORE_WEIGHTS
  else (b1 / total, b2 / total, b3 / total)

/-- `engine/backtest/performance.py` `_normalize_score_weights`: override the
defaults key-wise with any non-`None` supplied values, then normalize. -/
def normalizeScoreWeights (weights : Option ScoreWeights) : ℚ × ℚ × ℚ :=
  normalizeScoreWeightsCore
    (match weights with
      | some w => w.hitRate.getD (4/10)
      | none => 4/10)
    (match weights with
      | some w => w.sharpeWeight.getD (35/100)
      | none => 35/100)
    (match weights with
      | some w => w.cycleCapture.getD (25/100)
      | none => 25/100)

/-- `engine/backtest/performance.py` `compute_algorithm_score`, parametric in
the float `math.atan` and the float square root used by `statistics.pstdev`
(abstracted as `atanF` and `sqrtF`; no property of either is used). -/
def computeAlgorithmScore (atanF sqrtF : ℚ → ℚ) (closes : List ℚ)
    (cycles : List CycleSegment) (weights : Option ScoreWeights) : AlgorithmScore :=
  if closes.length < 3 then
    { composite := 0, hitRate := 0, sharpeQuot := 0, cycleCaptureRate := 0 }
  else
    let changes := pctChanges closes
    let meanRet := if changes ≠ [] then meanQ changes else 0
    let stddev := if 1 < changes.length then sqrtF (popVar changes) else 0
    let hitRate :=
      if changes ≠ [] then ((changes.filter (fun c => decide (0 < c))).length : ℚ) / changes.length
      else 0
    let sharpeQuot := if stddev ≠ 0 then meanRet / stddev else 0
    let cycleCapture := cycleCaptureRate closes cycles
    let ns := normalizedSharpe atanF meanRet stddev
    let w := normalizeScoreWeights weights
    let composite := hitRate * w.1 + ns * w.2.1 + cycleCapture * w.2.2
    { composite := composite * 100
      hitRate := hitRate
      sharpeQuot := sharpeQuot
      cycleCaptureRate := cycleCapture }

/-- `engine/backtest/walkforward.py` `WalkForwardWindow` dataclass. -/
structure WalkForwardWindow where
  trainStart : ℕ
  trainEnd : ℕ
  testStart : ℕ
  testEnd : ℕ
  deriving Repr, DecidableEq

/-- `engine/backtest/walkforward.py` `WalkForwardRun` dataclass. -/
structure WalkForwardRun where
  window : WalkForwardWindow
  train : PerformanceSummary
  test : PerformanceSummary
  deriving Repr, DecidableEq

/-- The aggregate mapping `_summarize_runs` returns for a non-empty run list. -/
structure WalkForwardSummary where
  windows : ℕ
  avgTestHitRate : ℚ
  avgTestReturn5d : ℚ
  avgTestReturn10d : ℚ
  worstTestDrawdown : ℚ
  deriving Repr, DecidableEq

/-- The mapping returned by `walk_forward_validate`; `summary = none` models
the empty dict `{}`. -/
structure WalkForwardResult where
  windows : List WalkForwardRun
  summary : Option WalkForwardSummary
  deriving Repr, DecidableEq

/-- `engine/backtest/walkforward.py` `_summarize_runs` on a non-empty list. -/
def summarizeRuns (runs : List WalkForwardRun) : WalkForwardSummary :=
  { windows := runs.length
    avgTestHitRate := meanQ (runs.map (fun r => r.test.hitRate))
    avgTestReturn5d := meanQ (runs.map (fun r => r.test.avgReturn5d))
    avgTestReturn10d := meanQ (runs.map (fun r => r.test.avgReturn10d))
    worstTestDrawdown := listMin (runs.map (fun r => r.test.maxDrawdown)) }

/-- `engine/backtest/walkforward.py` `walk_forward_validate`; the two
`ValueError` raises are modelled with `Except.error`, the `break` on a test
window overrunning the data with `takeWhile`, and `range(0, boundary, step)`
with `List.range'`. -/
def walkForwardValidate (closes : List ℚ) (trainSize testSize : ℕ)
    (stepArg : Option ℕ := none) : Except String WalkForwardResult :=
  if trainSize ≤ 1 then Except.error "train_size must be at least 2 sessions"
  else if testSize ≤ 1 then Except.error "test_size must be at least 2 sessions"
  else
    -- `step = step or test_size` (None and 0 are falsy)
    let step := match stepArg with
      | some s => if s = 0 then testSize else s
      | none => testSize
    let total := closes.length
    let boundary : ℤ := (total : ℤ) - trainSize - testSize + 1
    if boundary ≤ 0 then Except.ok { windows := [], summary := none }
    else
      let anchors := List.range' 0 ((boundary.toNat + step - 1) / step) step
      let kept := anchors.takeWhile (fun a => decide (a + trainSize + testSize - 1 < total))
      let runs := kept.map (fun a =>
        { window :=
            { trainStart := a
              trainEnd := a + trainSize - 1
              testStart := a + trainSize
              testEnd := a + trainSize + testSize - 1 }
          train := summarizeReturns ((closes.drop a).take trainSize)
          test := summarizeReturns ((closes.drop (a + trainSize)).take testSize) })
      Except.ok
        { windows := runs
          summary := if runs = [] then none else some (summarizeRuns runs) }

/-- `engine/backtest/trade_engine.py` `TradeSettings` dataclass with its
defaults (`cost_bps`/`slippage_bps` are ints in the source, modelled as ℚ). -/
structure TradeSettings where
  strategyId : String := "cycle_basic"
  costBps : ℚ := 10
  slippageBps : ℚ := 5
  maxPositions : ℕ := 1
  cooldownDays : ℤ := 3
  adxMinSoft : ℚ := 12
  atrPctMinSoft : ℚ := 6/1000
  targetDailyVol : ℚ := 1/100
  minPosition : ℚ := 1/4
  maxPosition : ℚ := 1
  stopAtrMultiple : ℚ := 5/2
  timeStopDays : ℕ := 45
  deriving Repr, DecidableEq

/-- One entry of an indicator series (`{"index": ..., "atr"/"adx": ...}`);
`value` is the payload under the looked-up key, `none` when absent/`None`. -/
structure IndEntry where
  index : ℕ
  value : Option ℚ
  deriving Repr, DecidableEq

/-- `engine/backtest/trade_engine.py` `_indicator_lookup`: a dict from index
to value built from the entries whose payload is present (later duplicate
indices overwrite earlier ones). -/
def indicatorLookup (series : List IndEntry) (i : ℕ) : Option ℚ :=
  ((series.filter (fun e => decide (e.index = i) && e.value.isSome)).getLast?).bind (·.value)

/-- `engine/backtest/trade_engine.py` `_clamp`. -/
def clampQ (value lower upper : ℚ) : ℚ := max lower (min upper value)

/-- `engine/backtest/trade_engine.py` `_soft_position_size`.  The guard
`(atr / close) if atr and close else None` uses Python truthiness on both
numbers. -/
def softPositionSize (adx atr : Option ℚ) (close : ℚ) (s : TradeSettings) : ℚ :=
  let size := s.maxPosition
  let size := match adx with
    | some a => if a < s.adxMinSoft then size * (1/2) else size
    | none => size
  let atrPct : Option ℚ := match atr with
    | some a => if a ≠ 0 ∧ close ≠ 0 then some (a / close) else none
    | none => none
  let size := match atrPct with
    | some p => if p < s.atrPctMinSoft then size * (1/2) else size
    | none => size
  let size := match atrPct with
    | some p => if p ≠ 0 ∧ s.targetDailyVol < p then size * (9/10) else size
    | none => size
  clampQ size s.minPosition s.maxPosition

/-- `engine/backtest/trade_engine.py` `_max_drawdown` (running peak; the
drawdown quotient is guarded by `if peak`). -/
def maxDrawdownPath (equityPath : List ℚ) : ℚ :=
  let peak0 : ℚ := match equityPath with
    | [] => 1
    | v :: _ => v
  (equityPath.foldl
    (fun acc value =>
      let peak := if acc.1 < value then value else acc.1
      let drawdown := if peak ≠ 0 then (value - peak) / peak else 0
      (peak, min acc.2 drawdown))
    (peak0, 0)).2

/-- A turning-point record as passed to the trade engine
(`{"index": tp.index, "kind": tp.kind}`). -/
structure TPRecord where
  index : ℕ
  kind : String
  deriving Repr, DecidableEq

/-- Python `str.upper()`, as a character-wise map over the string's data. -/
def strUpper (s : String) : String := ⟨s.data.map Char.toUpper⟩

/-- The `cycle_events` dict of `trade_engine_cycle_basic`: index to
upper-cased kind, later duplicate indices overwriting earlier ones. -/
def cycleEventAt (tps : List TPRecord) (i : ℕ) : Option String :=
  ((tps.filter (fun r => decide (r.index = i))).getLast?).map (fun r => strUpper r.kind)

/-- A row of the trade log. -/
structure Trade where
  id : ℕ
  entryDate : String
  entryPrice : ℚ
  entryReason : String
  size : ℚ
  exitDate : String
  exitPrice : ℚ
  exitReason : String
  grossReturn : ℚ
  netReturn : ℚ
  feesPaid : ℚ
  holdDays : ℕ
  mfe : ℚ
  mae : ℚ
  maxDrawdownTrade : ℚ
  deriving Repr, DecidableEq

/-- A row of the equity curve. -/
structure EquityRow where
  date : String
  buyHold : ℚ
  strategyGross : ℚ
  strategyNet : ℚ
  riskManaged : ℚ
  deriving Repr, DecidableEq

/-- The mutable locals of the `trade_engine_cycle_basic` date loop, threaded
as explicit state. -/
structure EngineState where
  inPosition : Bool
  entryIdx : Option ℕ
  entryPrice : ℚ
  positionSize : ℚ
  cooldownUntil : ℤ
  maxClose : ℚ
  minClose : ℚ
  equityPath : List ℚ
  intradayEquity : ℚ
  feesPaid : ℚ
  eqGross : ℚ
  eqNet : ℚ
  eqRisk : ℚ
  trades : List Trade
  equityRows : List EquityRow
  troughConfirmed : ℕ
  peakConfirmed : ℕ
  blockedCooldown : ℕ
  blockedAlreadyInPosition : ℕ
  missingExit : ℕ
  lastDetectedTrough : Option String
  lastDetectedPeak : Option String
  deriving Repr, DecidableEq

/-- The initial state of the date loop. -/
def initialEngineState : EngineState :=
  { inPosition := false
    entryIdx := none
    entryPrice := 0
    positionSize := 0
    cooldownUntil := -1
    maxClose := 0
    minClose := 0
    equityPath := []
    intradayEquity := 1
    feesPaid := 0
    eqGross := 100
    eqNet := 100
    eqRisk := 100
    trades := []
    equityRows := []
    troughConfirmed := 0
    peakConfirmed := 0
    blockedCooldown := 0
    blockedAlreadyInPosition := 0
    missingExit := 0
    lastDetectedTrough := none
    lastDetectedPeak := none }

/-- A concrete open-position state used by witness instantiations: the
initial state with a position opened at bar `e` at price `p` and full size. -/
def openTestState (e : ℕ) (p : ℚ) : EngineState :=
  { initialEngineState with
      inPosition := true
      entryIdx := some e
      entryPrice := p
      positionSize := 1
      maxClose := p
      minClose := p
      equityPath := [1] }

/-- The diagnostics block at the head of the `trade_engine_cycle_basic` date
loop (the trough/peak counters and last-detected dates). -/
def diagStep (eventAt : ℕ → Option String) (dateAt : ℕ → String) (idx : ℕ)
    (s : EngineState) : EngineState :=
  if eventAt idx = some "TROUGH" then
    { s with troughConfirmed := s.troughConfirmed + 1,
             lastDetectedTrough := some (dateAt idx) }
  else if eventAt idx = some "PEAK" then
    { s with peakConfirmed := s.peakConfirmed + 1,
             lastDetectedPeak := some (dateAt idx) }
  else s

/-- `daily_change` (`0.0` at the first bar or on a zero previous close). -/
def dailyChangeOf (close : ℚ) (prevClose : Option ℚ) : ℚ :=
  match prevClose with
  | some p => if p ≠ 0 then (close - p) / p else 0
  | none => 0

/-- The exit checks of the in-position block, in their source order:
PEAK_CONFIRMED first, then TIME_STOP, then STOP_ATR — the latter only when
the ATR dict holds a truthy (present and nonzero) value at the entry
index. -/
def exitReasonOf (settings : TradeSettings) (atrL : ℕ → Option ℚ)
    (eventAt : ℕ → Option String) (idx e : ℕ) (entryPrice close : ℚ) : Option String :=
  if eventAt idx = some "PEAK" then some "PEAK_CONFIRMED"
  else if settings.timeStopDays ≤ idx - e then some "TIME_STOP"
  else if numTruthy (atrL e) ∧
      close ≤ entryPrice - settings.stopAtrMultiple * (atrL e).getD 0 then
    some "STOP_ATR"
  else none

/-- The in-position block of the date loop: per-day equity compounding,
max/min tracking, the intraday path, and the exit checks. -/
def positionExitStep (settings : TradeSettings) (atrL : ℕ → Option ℚ)
    (eventAt : ℕ → Option String) (dateAt : ℕ → String) (costRate : ℚ)
    (idx : ℕ) (close : ℚ) (prevClose : Option ℚ) (s : EngineState) : EngineState :=
  if s.inPosition then
    let dailyChange := dailyChangeOf close prevClose
    let eqGross := s.eqGross * (1 + dailyChange * s.positionSize)
    let eqNet := s.eqNet * (1 + dailyChange * s.positionSize)
    let eqRisk := s.eqRisk * (1 + dailyChange * s.positionSize)
    let maxClose := if s.maxClose < close then close else s.maxClose
    let minClose := if close < s.minClose then close else s.minClose
    let intradayEquity := s.intradayEquity * (1 + dailyChange * s.positionSize)
    let equityPath := s.equityPath ++ [intradayEquity]
    match exitReasonOf settings atrL eventAt idx (s.entryIdx.getD 0) s.entryPrice close with
    | none =>
      { s with eqGross := eqGross, eqNet := eqNet, eqRisk := eqRisk,
               maxClose := maxClose, minClose := minClose,
               intradayEquity := intradayEquity, equityPath := equityPath }
    | some reason =>
      let grossReturn := if s.entryPrice ≠ 0 then (close - s.entryPrice) / s.entryPrice else 0
      let entryEffective := s.entryPrice * (1 + costRate)
      let exitEffective := close * (1 - costRate)
      let netUnscaled :=
        if entryEffective ≠ 0 then (exitEffective - entryEffective) / entryEffective else 0
      let netReturn := netUnscaled * s.positionSize
      let holdDays := idx - s.entryIdx.getD 0
      let mfe := if s.entryPrice ≠ 0 then (maxClose - s.entryPrice) / s.entryPrice else 0
      let mae := if s.entryPrice ≠ 0 then (minClose - s.entryPrice) / s.entryPrice else 0
      let maxDdTrade := maxDrawdownPath equityPath
      let feeOut := eqNet * s.positionSize * costRate
      let trade : Trade :=
        { id := s.trades.length + 1
          entryDate := dateAt (s.entryIdx.getD 0)
          entryPrice := s.entryPrice
          entryReason := "TROUGH_CONFIRMED"
          size := s.positionSize
          exitDate := dateAt idx
          exitPrice := close
          exitReason := reason
          grossReturn := grossReturn
          netReturn := netReturn
          feesPaid := feeOut
          holdDays := holdDays
          mfe := mfe
          mae := mae
          maxDrawdownTrade := maxDdTrade }
      { s with eqGross := eqGross, eqNet := eqNet - feeOut, eqRisk := eqRisk - feeOut,
               feesPaid := s.feesPaid + feeOut, trades := s.trades ++ [trade],
               inPosition := false, entryIdx := none, positionSize := 0,
               cooldownUntil := (idx : ℤ) + settings.cooldownDays,
               maxClose := 0, minClose := 0, equityPath := [], intradayEquity := 1 }
  else s

/-- The entry block of the date loop (cooldown gate, soft sizing, entry fee)
and the already-in-position diagnostic branch. -/
def entryStep (settings : TradeSettings) (atrL adxL : ℕ → Option ℚ)
    (eventAt : ℕ → Option String) (costRate : ℚ) (idx : ℕ) (close : ℚ)
    (s : EngineState) : EngineState :=
  if s.inPosition = false ∧ eventAt idx = some "TROUGH" then
    if (idx : ℤ) < s.cooldownUntil then
      { s with blockedCooldown := s.blockedCooldown + 1 }
    else
      let size := softPositionSize (adxL idx) (atrL idx) close settings
      let feeIn := s.eqNet * size * costRate
      { s with inPosition := true, entryIdx := some idx, entryPrice := close,
               positionSize := size, maxClose := close, minClose := close,
               intradayEquity := 1, eqNet := s.eqNet - feeIn, eqRisk := s.eqRisk - feeIn,
               feesPaid := s.feesPaid + feeIn, equityPath := [1] }
  else if s.inPosition = true ∧ eventAt idx = some "TROUGH" then
    { s with blockedAlreadyInPosition := s.blockedAlreadyInPosition + 1 }
  else s

/-- The equity-row append at the end of the date loop. -/
def equityRowStep (dateAt : ℕ → String) (buyHoldBase : ℚ) (idx : ℕ) (close : ℚ)
    (s : EngineState) : EngineState :=
  let buyHoldValue := if buyHoldBase ≠ 0 then 100 * (close / buyHoldBase) else 100
  { s with equityRows := s.equityRows ++
      [{ date := dateAt idx
         buyHold := buyHoldValue
         strategyGross := s.eqGross
         strategyNet := s.eqNet
         riskManaged := s.eqRisk }] }

/-- One iteration of the `for idx, close in enumerate(closes)` loop of
`trade_engine_cycle_basic`, as the in-order composition of its four blocks.
`prevClose` is `closes[idx-1]` (`none` at `idx = 0`). -/
def engineStep (settings : TradeSettings) (atrL adxL : ℕ → Option ℚ)
    (eventAt : ℕ → Option String) (dateAt : ℕ → String) (costRate buyHoldBase : ℚ)
    (s : EngineState) (idx : ℕ) (close : ℚ) (prevClose : Option ℚ) : EngineState :=
  equityRowStep dateAt buyHoldBase idx close
    (entryStep settings atrL adxL eventAt costRate idx close
      (positionExitStep settings atrL eventAt dateAt costRate idx close prevClose
        (diagStep eventAt dateAt idx s)))

/-- The date loop, folding `engineStep` over the closes with their index and
previous close. -/
def engineLoop (settings : TradeSettings) (atrL adxL : ℕ → Option ℚ)
    (eventAt : ℕ → Option String) (dateAt : ℕ → String) (costRate buyHoldBase : ℚ)
    (s : EngineState) (idx : ℕ) (prevClose : Option ℚ) : List ℚ → EngineState
  | [] => s
  | close :: rest =>
    engineLoop settings atrL adxL eventAt dateAt costRate buyHoldBase
      (engineStep settings atrL adxL eventAt dateAt costRate buyHoldBase s idx close prevClose)
      (idx + 1) (some close) rest

/-- The final forced-exit block of `trade_engine_cycle_basic` (runs when the
loop ends while still in a position). -/
def forcedExit (dateAt : ℕ → String) (costRate : ℚ)
    (closes : List ℚ) (s : EngineState) : EngineState :=
  match s.inPosition, s.entryIdx with
  | true, some e =>
    let lastClose := closes.getLastD 0
    let grossReturn := if s.entryPrice ≠ 0 then (lastClose - s.entryPrice) / s.entryPrice else 0
    let entryEffective := s.entryPrice * (1 + costRate)
    let exitEffective := lastClose * (1 - costRate)
    let netUnscaled :=
      if entryEffective ≠ 0 then (exitEffective - entryEffective) / entryEffective else 0
    let netReturn := netUnscaled * s.positionSize
    let holdDays := closes.length - e - 1
    let mfe := if s.entryPrice ≠ 0 then (s.maxClose - s.entryPrice) / s.entryPrice else 0
    let mae := if s.entryPrice ≠ 0 then (s.minClose - s.entryPrice) / s.entryPrice else 0
    let maxDdTrade := maxDrawdownPath s.equityPath
    let feeOut := s.eqNet * s.positionSize * costRate
    let trade : Trade :=
      { id := s.trades.length + 1
        entryDate := dateAt e
        entryPrice := s.entryPrice
        entryReason := "TROUGH_CONFIRMED"
        size := s.positionSize
        exitDate := dateAt (closes.length - 1)
        exitPrice := lastClose
        exitReason := "FORCED_EXIT_END_OF_DATA"
        grossReturn := grossReturn
        netReturn := netReturn
        feesPaid := feeOut
        holdDays := holdDays
        mfe := mfe
        mae := mae
        maxDrawdownTrade := maxDdTrade }
    { s with missingExit := s.missingExit + 1,
             eqNet := s.eqNet - feeOut, eqRisk := s.eqRisk - feeOut,
             feesPaid := s.feesPaid + feeOut, trades := s.trades ++ [trade] }
  | _, _ => s

/-- The values of `trade_engine_cycle_basic`'s payload that the claims are
about: the trade log, the equity rows, the fee total, and the diagnostics
counters.  The derived risk-metrics summary and the per-year grouping (which
parse dates with `datetime`) and the JSON meta envelopes are not modelled. -/
structure EngineOutput where
  trades : List Trade
  equityRows : List EquityRow
  feesPaid : ℚ
  troughConfirmed : ℕ
  peakConfirmed : ℕ
  blockedCooldown : ℕ
  blockedAlreadyInPosition : ℕ
  missingExit : ℕ
  lastDetectedTrough : Option String
  lastDetectedPeak : Option String
  deriving Repr, DecidableEq

/-- The per-trade cost-monotonicity invariant threaded through the date loop:
every logged trade's net return is at most its position size times its gross
return, and any open position has a positive entry price and a nonnegative
size. -/
def TradesSound (s : EngineState) : Prop :=
  (∀ t ∈ s.trades, t.netReturn ≤ t.size * t.grossReturn) ∧
  (s.inPosition = true → 0 < s.entryPrice ∧ 0 ≤ s.positionSize)

/-- `engine/backtest/trade_engine.py` `trade_engine_cycle_basic` (an empty
price list short-circuits to the all-empty payload). -/
def tradeEngineCycleBasic (prices : List PriceRow) (turningPoints : List TPRecord)
    (atrSeries adxSeries : List IndEntry) (settings : TradeSettings) : EngineOutput :=
  if prices = [] then
    { trades := [], equityRows := [], feesPaid := 0, troughConfirmed := 0,
      peakConfirmed := 0, blockedCooldown := 0, blockedAlreadyInPosition := 0,
      missingExit := 0, lastDetectedTrough := none, lastDetectedPeak := none }
  else
    let closes := prices.map (·.close)
    let dates := prices.map (·.date)
    let dateAt := fun i => dates.getD i ""
    let atrL := indicatorLookup atrSeries
    let adxL := indicatorLookup adxSeries
    let eventAt := cycleEventAt turningPoints
    let costRate := (settings.costBps + settings.slippageBps) / 10000
    let buyHoldBase := closes.headD 1
    let final := engineLoop settings atrL adxL eventAt dateAt costRate buyHoldBase
      initialEngineState 0 none closes
    let final := forcedExit dateAt costRate closes final
    { trades := final.trades
      equityRows := final.equityRows
      feesPaid := final.feesPaid
      troughConfirmed := final.troughConfirmed
      peakConfirmed := final.peakConfirmed
      blockedCooldown := final.blockedCooldown
      blockedAlreadyInPosition := final.blockedAlreadyInPosition
      missingExit := final.missingExit
      lastDetectedTrough := final.lastDetectedTrough
      lastDetectedPeak := final.lastDetectedPeak }

/-! ## Cycle segmenter: helper lemmas -/

lemma findTPAux_eq_nil_of_nonneg (l : List ℚ) :
    ∀ prev idx, (∀ d ∈ l, 0 ≤ d) → 0 ≤ prev → findTPAux prev idx l = [] := by
  induction l with
  | nil => intro prev idx _ _; rfl
  | cons d rest ih =>
    intro prev idx hall hprev
    have hd : 0 ≤ d := hall d (by simp)
    have hrest : ∀ x ∈ rest, 0 ≤ x := fun x hx => hall x (by simp [hx])
    by_cases hd0 : d = 0
    · simp only [findTPAux, if_pos hd0]
      exact ih prev (idx + 1) hrest hprev
    · have hnotpeak : ¬ (0 < prev ∧ d < 0) := by
        intro h; exact absurd h.2 (not_lt.mpr hd)
      have hnottrough : ¬ (prev < 0 ∧ 0 < d) := by
        intro h; exact absurd h.1 (not_lt.mpr hprev)
      simp only [findTPAux, if_neg hd0, if_neg hnotpeak, if_neg hnottrough]
      exact ih d (idx + 1) hrest hd

lemma deltasOf_nonneg (closes : List ℚ) :
    List.Chain' (· ≤ ·) closes → ∀ d ∈ deltasOf closes, 0 ≤ d := by
  induction closes with
  | nil => intro _ d hd; simp [deltasOf] at hd
  | cons a rest ih =>
    intro hchain d hd
    cases rest with
    | nil => simp [deltasOf] at hd
    | cons b rest2 =>
      rw [List.chain'_cons] at hchain
      simp only [deltasOf, List.tail_cons, List.zipWith_cons_cons, List.mem_cons] at hd
      rcases hd with hd | hd
      · subst hd; linarith [hchain.1]
      · exact ih hchain.2 d hd

lemma findTurningPoints_eq (closes : List ℚ) :
    findTurningPoints closes =
      match (deltasOf closes).find? (fun d => decide (d ≠ 0)) with
      | none => []
      | some prev => findTPAux prev 1 ((deltasOf closes).drop 1) := rfl

lemma findTurningPoints_eq_nil_of_monotone (closes : List ℚ)
    (h : List.Chain' (· ≤ ·) closes) : findTurningPoints closes = [] := by
  rw [findTurningPoints_eq]
  cases hfind : (deltasOf closes).find? (fun d => decide (d ≠ 0)) with
  | none => rfl
  | some prev =>
    have hmem := List.mem_of_find?_eq_some hfind
    have hprev : 0 ≤ prev := deltasOf_nonneg closes h prev hmem
    have hrest : ∀ d ∈ (deltasOf closes).drop 1, 0 ≤ d := fun d hd =>
      deltasOf_nonneg closes h d (List.mem_of_mem_drop hd)
    exact findTPAux_eq_nil_of_nonneg _ prev 1 hrest hprev

lemma findTPAux_index_bounds (l : List ℚ) :
    ∀ prev idx, ∀ tp ∈ findTPAux prev idx l, idx ≤ tp.index ∧ tp.index < idx + l.length := by
  induction l with
  | nil => intro prev idx tp htp; simp [findTPAux] at htp
  | cons d rest ih =>
    intro prev idx tp htp
    simp only [findTPAux] at htp
    split_ifs at htp with h0 hpk htr
    · have := ih prev (idx + 1) tp htp
      simp only [List.length_cons]; omega
    · rcases List.mem_cons.mp htp with htp | htp
      · subst htp; simp only [List.length_cons]; omega
      · have := ih d (idx + 1) tp htp
        simp only [List.length_cons]; omega
    · rcases List.mem_cons.mp htp with htp | htp
      · subst htp; simp only [List.length_cons]; omega
      · have := ih d (idx + 1) tp htp
        simp only [List.length_cons]; omega
    · have := ih d (idx + 1) tp htp
      simp only [List.length_cons]; omega

lemma findTPAux_pairwise_index (l : List ℚ) :
    ∀ prev idx, (findTPAux prev idx l).Pairwise (fun a b => a.index < b.index) := by
  induction l with
  | nil => intro prev idx; simp [findTPAux]
  | cons d rest ih =>
    intro prev idx
    simp only [findTPAux]
    split_ifs with h0 hpk htr
    · exact ih prev (idx + 1)
    · refine List.pairwise_cons.mpr ⟨?_, ih d (idx + 1)⟩
      intro tp htp
      exact lt_of_lt_of_le (Nat.lt_succ_self idx) (findTPAux_index_bounds rest d (idx + 1) tp htp).1
    · refine List.pairwise_cons.mpr ⟨?_, ih d (idx + 1)⟩
      intro tp htp
      exact lt_of_lt_of_le (Nat.lt_succ_self idx) (findTPAux_index_bounds rest d (idx + 1) tp htp).1
    · exact ih d (idx + 1)

lemma findTPAux_kind_mem (l : List ℚ) :
    ∀ prev idx, ∀ tp ∈ findTPAux prev idx l, tp.kind = "peak" ∨ tp.kind = "trough" := by
  induction l with
  | nil => intro prev idx tp htp; simp [findTPAux] at htp
  | cons d rest ih =>
    intro prev idx tp htp
    simp only [findTPAux] at htp
    split_ifs at htp with h0 hpk htr
    · exact ih prev (idx + 1) tp htp
    · rcases List.mem_cons.mp htp with htp | htp
      · subst htp; left; rfl
      · exact ih d (idx + 1) tp htp
    · rcases List.mem_cons.mp htp with htp | htp
      · subst htp; right; rfl
      · exact ih d (idx + 1) tp htp
    · exact ih d (idx + 1) tp htp

lemma findTPAux_alternating (l : List ℚ) :
    ∀ prev idx,
      (findTPAux prev idx l).Chain' (fun a b => a.kind ≠ b.kind) ∧
      (∀ tp ∈ (findTPAux prev idx l).head?,
        (0 < prev → tp.kind = "peak") ∧ (prev < 0 → tp.kind = "trough")) := by
  induction l with
  | nil => intro prev idx; constructor <;> simp [findTPAux]
  | cons d rest ih =>
    intro prev idx
    simp only [findTPAux]
    split_ifs with h0 hpk htr
    · exact ih prev (idx + 1)
    · obtain ⟨ihchain, ihhead⟩ := ih d (idx + 1)
      constructor
      · refine List.chain'_cons'.mpr ⟨?_, ihchain⟩
        intro tp htp
        have := (ihhead tp htp).2 hpk.2
        simp only [this]
        decide
      · intro tp htp
        simp only [Option.mem_def, List.head?_cons, Option.some.injEq] at htp
        subst htp
        exact ⟨fun _ => rfl, fun hneg => absurd hpk.1 (not_lt.mpr hneg.le)⟩
    · obtain ⟨ihchain, ihhead⟩ := ih d (idx + 1)
      constructor
      · refine List.chain'_cons'.mpr ⟨?_, ihchain⟩
        intro tp htp
        have := (ihhead tp htp).1 htr.2
        simp only [this]
        decide
      · intro tp htp
        simp only [Option.mem_def, List.head?_cons, Option.some.injEq] at htp
        subst htp
        exact ⟨fun hposv => absurd htr.1 (not_lt.mpr hposv.le), fun _ => rfl⟩
    · obtain ⟨ihchain, ihhead⟩ := ih d (idx + 1)
      refine ⟨ihchain, fun tp htp => ?_⟩
      rcases lt_trichotomy d 0 with hdneg | hdzero | hdpos
      · refine ⟨fun hposv => ?_, fun hneg => ?_⟩
        · exact absurd ⟨hposv, hdneg⟩ hpk
        · exact (ihhead tp htp).2 hdneg
      · exact absurd hdzero h0
      · refine ⟨fun hposv => ?_, fun hneg => ?_⟩
        · exact (ihhead tp htp).1 hdpos
        · exact absurd ⟨hneg, hdpos⟩ htr

lemma deltasOf_length (closes : List ℚ) :
    (deltasOf closes).length = closes.length - 1 := by
  simp only [deltasOf, List.length_zipWith, List.length_tail]
  omega

lemma findTurningPoints_invariants (closes : List ℚ) :
    (findTurningPoints closes).Pairwise (fun a b => a.index < b.index) ∧
    (∀ tp ∈ findTurningPoints closes, 1 ≤ tp.index ∧ tp.index ≤ closes.length - 2) ∧
    (findTurningPoints closes).Chain' (fun a b => a.kind ≠ b.kind) := by
  rw [findTurningPoints_eq]
  cases hfind : (deltasOf closes).find? (fun d => decide (d ≠ 0)) with
  | none => refine ⟨by simp, by simp, by simp⟩
  | some prev =>
    have hne : deltasOf closes ≠ [] := by
      intro hnil
      rw [hnil] at hfind
      simp at hfind
    have hlen2 : 2 ≤ closes.length := by
      have := deltasOf_length closes
      have : (deltasOf closes).length ≠ 0 := fun h => hne (List.length_eq_zero.mp h)
      omega
    refine ⟨findTPAux_pairwise_index _ prev 1, fun tp htp => ?_,
      (findTPAux_alternating _ prev 1).1⟩
    have hbd := findTPAux_index_bounds _ prev 1 tp htp
    have hdl : ((deltasOf closes).drop 1).length = (deltasOf closes).length - 1 := by
      simp
    have := deltasOf_length closes
    omega

lemma findTurningPoints_kind_mem (closes : List ℚ) :
    ∀ tp ∈ findTurningPoints closes, tp.kind = "peak" ∨ tp.kind = "trough" := by
  rw [findTurningPoints_eq]
  cases hfind : (deltasOf closes).find? (fun d => decide (d ≠ 0)) with
  | none => simp
  | some prev => exact findTPAux_kind_mem _ prev 1

lemma detectCycles_eq (prices : List PriceRow) :
    detectCycles prices =
      if prices.length < 3 then ([], [])
      else
        (buildSegments (prices.map (·.close)) (prices.map (·.date))
            (findTurningPoints (prices.map (·.close))),
          findTurningPoints (prices.map (·.close))) := rfl

lemma mkSegment_start_idx (closes : List ℚ) (dates : List String) (p c : TurningPoint) :
    (mkSegment closes dates p c).start_idx = p.index := rfl

lemma mkSegment_end_idx (closes : List ℚ) (dates : List String) (p c : TurningPoint) :
    (mkSegment closes dates p c).end_idx = c.index := rfl

lemma mkSegment_direction (closes : List ℚ) (dates : List String) (p c : TurningPoint) :
    (mkSegment closes dates p c).direction =
      if p.kind = "trough" ∧ c.kind = "peak" then "upswing" else "downswing" := rfl

lemma buildSegments_mem (closes : List ℚ) (dates : List String) :
    ∀ (tps : List TurningPoint) (seg : CycleSegment), seg ∈ buildSegments closes dates tps →
      ∃ i p c, tps.get? i = some p ∧ tps.get? (i + 1) = some c ∧ p.kind ≠ c.kind ∧
        seg = mkSegment closes dates p c := by
  intro tps
  induction tps with
  | nil => intro seg hseg; simp [buildSegments] at hseg
  | cons p rest ih =>
    intro seg hseg
    cases rest with
    | nil => simp [buildSegments] at hseg
    | cons c rest2 =>
      simp only [buildSegments, List.mem_append] at hseg
      rcases hseg with hseg | hseg
      · by_cases hk : p.kind = c.kind
        · simp [hk] at hseg
        · rw [if_neg hk] at hseg
          simp only [List.mem_singleton] at hseg
          exact ⟨0, p, c, rfl, rfl, hk, hseg⟩
      · obtain ⟨i, p', c', h1, h2, h3, h4⟩ := ih seg hseg
        exact ⟨i + 1, p', c', h1, h2, h3, h4⟩

/-! ## Claim theorems: cycle segmenter -/

/-- C7: for every price series, of any length, whose day-over-day close deltas
are all non-negative (flat or rising every day), `detect_cycles` returns an
empty turning-point list and an empty segment list; in particular zero deltas
never produce a turning point. -/
theorem detectCycles_monotone_empty (prices : List PriceRow)
    (h : List.Chain' (fun a b => a.close ≤ b.close) prices) :
    detectCycles prices = ([], []) := by
  rw [detectCycles_eq]
  split_ifs with hlen
  · rfl
  · have hchain : List.Chain' (· ≤ ·) (prices.map (·.close)) := by
      rw [List.chain'_map]
      exact h
    rw [findTurningPoints_eq_nil_of_monotone _ hchain]
    rfl

/-- C7 witness: a concrete flat-then-rising series yields no turning points
and no segments. -/
theorem detectCycles_monotone_empty_witness :
    List.Chain' (fun a b => a.close ≤ b.close)
      [PriceRow.mk "2024-01-01" 1, PriceRow.mk "2024-01-02" 1,
       PriceRow.mk "2024-01-03" 2, PriceRow.mk "2024-01-04" 3] ∧
    detectCycles
      [PriceRow.mk "2024-01-01" 1, PriceRow.mk "2024-01-02" 1,
       PriceRow.mk "2024-01-03" 2, PriceRow.mk "2024-01-04" 3] = ([], []) :=
  ⟨by norm_num [List.chain'_cons, List.chain'_singleton],
    detectCycles_monotone_empty _ (by norm_num [List.chain'_cons, List.chain'_singleton])⟩

/-- C10: the turning points returned by `_find_turning_points` (and hence the
ones `detect_cycles` returns) have strictly increasing indices, each index `i`
satisfies `1 ≤ i ≤ len(closes) - 2`, and the kinds strictly alternate: no two
consecutive returned turning points have the same kind. -/
theorem turningPoint_invariants (closes : List ℚ) (prices : List PriceRow) :
    ((findTurningPoints closes).Pairwise (fun a b => a.index < b.index) ∧
      (∀ tp ∈ findTurningPoints closes, 1 ≤ tp.index ∧ tp.index ≤ closes.length - 2) ∧
      (findTurningPoints closes).Chain' (fun a b => a.kind ≠ b.kind)) ∧
    ((detectCycles prices).2.Pairwise (fun a b => a.index < b.index) ∧
      (∀ tp ∈ (detectCycles prices).2, 1 ≤ tp.index ∧ tp.index ≤ prices.length - 2) ∧
      (detectCycles prices).2.Chain' (fun a b => a.kind ≠ b.kind)) := by
  refine ⟨findTurningPoints_invariants closes, ?_⟩
  rw [detectCycles_eq]
  split_ifs with hlen
  · refine ⟨by simp, by simp, by simp⟩
  · have h := findTurningPoints_invariants (prices.map (·.close))
    simpa using h

/-- C6: every cycle segment returned by `detect_cycles` is formed from two
consecutive turning points of different kinds (a same-kind consecutive pair
never yields a segment), and its direction is `"upswing"` exactly when it runs
from a trough to a peak and `"downswing"` exactly when it runs from a peak to
a trough. -/
theorem detectCycles_segment_alternation (prices : List PriceRow) (seg : CycleSegment)
    (hseg : seg ∈ (detectCycles prices).1) :
    ∃ i p c, (detectCycles prices).2.get? i = some p ∧
      (detectCycles prices).2.get? (i + 1) = some c ∧ p.kind ≠ c.kind ∧
      seg.start_idx = p.index ∧ seg.end_idx = c.index ∧
      (seg.direction = "upswing" ↔ p.kind = "trough" ∧ c.kind = "peak") ∧
      (seg.direction = "downswing" ↔ p.kind = "peak" ∧ c.kind = "trough") := by
  revert hseg
  rw [detectCycles_eq]
  split_ifs with hlen
  · intro hseg; simp at hseg
  · intro hseg
    simp only at hseg ⊢
    obtain ⟨i, p, c, h1, h2, h3, h4⟩ := buildSegments_mem _ _ _ seg hseg
    have hpk : p.kind = "peak" ∨ p.kind = "trough" :=
      findTurningPoints_kind_mem _ p (List.get?_mem h1)
    have hck : c.kind = "peak" ∨ c.kind = "trough" :=
      findTurningPoints_kind_mem _ c (List.get?_mem h2)
    refine ⟨i, p, c, h1, h2, h3, ?_, ?_, ?_, ?_⟩
    · rw [h4, mkSegment_start_idx]
    · rw [h4, mkSegment_end_idx]
    · rw [h4, mkSegment_direction]
      by_cases hup : p.kind = "trough" ∧ c.kind = "peak"
      · rw [if_pos hup]
        exact ⟨fun _ => hup, fun _ => rfl⟩
      · rw [if_neg hup]
        exact ⟨fun hcontra => absurd hcontra (by decide), fun hcontra => absurd hcontra hup⟩
    · rw [h4, mkSegment_direction]
      by_cases hup : p.kind = "trough" ∧ c.kind = "peak"
      · rw [if_pos hup]
        refine ⟨fun hcontra => absurd hcontra (by decide), fun hcontra => ?_⟩
        exact absurd (hup.1.symm.trans hcontra.1) (by decide)
      · rw [if_neg hup]
        refine ⟨fun _ => ?_, fun _ => rfl⟩
        rcases hpk with hp | hp <;> rcases hck with hc | hc
        · exact absurd (hp.trans hc.symm) h3
        · exact ⟨hp, hc⟩
        · exact absurd ⟨hp, hc⟩ hup
        · exact absurd (hp.trans hc.symm) h3

/-- C6 witness: a concrete down-up-down series produces an upswing segment
generated by the consecutive trough/peak pair. -/
theorem detectCycles_segment_alternation_witness :
    ∃ i p c,
      (detectCycles
        [PriceRow.mk "a" 2, PriceRow.mk "b" 1, PriceRow.mk "c" 2,
         PriceRow.mk "d" 1]).2.get? i = some p ∧
      (detectCycles
        [PriceRow.mk "a" 2, PriceRow.mk "b" 1, PriceRow.mk "c" 2,
         PriceRow.mk "d" 1]).2.get? (i + 1) = some c ∧ p.kind ≠ c.kind ∧
      (mkSegment [2, 1, 2, 1] ["a", "b", "c", "d"] ⟨1, "trough"⟩ ⟨2, "peak"⟩).start_idx = p.index ∧
      (mkSegment [2, 1, 2, 1] ["a", "b", "c", "d"] ⟨1, "trough"⟩ ⟨2, "peak"⟩).end_idx = c.index ∧
      ((mkSegment [2, 1, 2, 1] ["a", "b", "c", "d"] ⟨1, "trough"⟩ ⟨2, "peak"⟩).direction = "upswing" ↔
        p.kind = "trough" ∧ c.kind = "peak") ∧
      ((mkSegment [2, 1, 2, 1] ["a", "b", "c", "d"] ⟨1, "trough"⟩ ⟨2, "peak"⟩).direction = "downswing" ↔
        p.kind = "peak" ∧ c.kind = "trough") :=
  detectCycles_segment_alternation
    [PriceRow.mk "a" 2, PriceRow.mk "b" 1, PriceRow.mk "c" 2, PriceRow.mk "d" 1]
    (mkSegment [2, 1, 2, 1] ["a", "b", "c", "d"] ⟨1, "trough"⟩ ⟨2, "peak"⟩)
    (by
      rw [show (detectCycles
            [PriceRow.mk "a" 2, PriceRow.mk "b" 1, PriceRow.mk "c" 2, PriceRow.mk "d" 1]).1 =
          [mkSegment [2, 1, 2, 1] ["a", "b", "c", "d"] ⟨1, "trough"⟩ ⟨2, "peak"⟩] from by
        rw [detectCycles_eq]
        norm_num [findTurningPoints, deltasOf, findTPAux, buildSegments] <;> decide]
      exact List.mem_singleton_self _)

/-! ## Event detector: claim C5 -/

lemma half_sqrt_le_iff_sq (v d : ℝ) : (1/2) * Real.sqrt v ≤ d ↔ 0 ≤ d ∧ v ≤ 4 * d ^ 2 := by
  constructor
  · intro h
    have h2 : Real.sqrt v ≤ 2 * d := by linarith
    obtain ⟨hd, hv⟩ := Real.sqrt_le_iff.mp h2
    exact ⟨by linarith, by nlinarith⟩
  · rintro ⟨hd, hv⟩
    have h2 : Real.sqrt v ≤ 2 * d := Real.sqrt_le_iff.mpr ⟨by linarith, by nlinarith⟩
    linarith

lemma sqrt_lt_iff_sq (v d : ℝ) : Real.sqrt v < d ↔ 0 < d ∧ v < d ^ 2 := by
  constructor
  · intro h
    have hd : 0 < d := lt_of_le_of_lt (Real.sqrt_nonneg v) h
    exact ⟨hd, (Real.sqrt_lt' hd).mp h⟩
  · rintro ⟨hd, hv⟩
    exact (Real.sqrt_lt' hd).mpr hv

lemma half_sqrt_lt_iff_sq (v u : ℝ) : (1/2) * Real.sqrt v < u ↔ 0 < u ∧ v < 4 * u ^ 2 := by
  constructor
  · intro h
    have h2 : Real.sqrt v < 2 * u := by linarith
    have hu : 0 < 2 * u := lt_of_le_of_lt (Real.sqrt_nonneg v) h2
    refine ⟨by linarith, ?_⟩
    have := (Real.sqrt_lt' hu).mp h2
    nlinarith
  · rintro ⟨hu, hv⟩
    have h2 : Real.sqrt v < 2 * u := (Real.sqrt_lt' (by linarith)).mpr (by nlinarith)
    linarith

lemma popVar_nonneg (l : List ℚ) : 0 ≤ popVar l := by
  unfold popVar
  apply div_nonneg _ (by positivity)
  apply List.sum_nonneg
  intro x hx
  obtain ⟨y, _, rfl⟩ := List.mem_map.mp hx
  positivity

lemma vol5Sq_nonneg (closes : List ℚ) : 0 ≤ vol5Sq closes := by
  unfold vol5Sq
  split_ifs
  · exact popVar_nonneg _
  · exact le_refl 0

lemma vol20Sq_nonneg (closes : List ℚ) : 0 ≤ vol20Sq closes := by
  unfold vol20Sq
  split_ifs
  · exact popVar_nonneg _
  · exact le_refl 0

lemma mem_detectEvents_shakeout (closes : List ℚ) :
    (∃ e ∈ detectEvents closes, e.name = "SHAKEOUT" ∧ e.confidence = 62/100) ↔
      shakeoutCond closes := by
  unfold detectEvents
  by_cases h1 : shakeoutCond closes <;> by_cases h2 : distRiskCond closes <;>
    by_cases h3 : reclaimCond closes <;> by_cases h4 : rangeAccumCond closes <;>
    simp only [h1, h2, h3, h4, if_true, if_false, ite_true, ite_false, List.append_nil,
      List.nil_append, List.cons_append] <;>
    first
      | (rw [if_pos rfl]; norm_num <;> decide)
      | (rw [if_neg (List.cons_ne_nil _ _)]; norm_num <;> decide)
      | (norm_num <;> decide)

lemma mem_detectEvents_distRisk (closes : List ℚ) :
    (∃ e ∈ detectEvents closes, e.name = "DISTRIBUTION_RISK" ∧ e.confidence = 55/100) ↔
      distRiskCond closes := by
  unfold detectEvents
  by_cases h1 : shakeoutCond closes <;> by_cases h2 : distRiskCond closes <;>
    by_cases h3 : reclaimCond closes <;> by_cases h4 : rangeAccumCond closes <;>
    simp only [h1, h2, h3, h4, if_true, if_false, ite_true, ite_false, List.append_nil,
      List.nil_append, List.cons_append] <;>
    first
      | (rw [if_pos rfl]; norm_num <;> decide)
      | (rw [if_neg (List.cons_ne_nil _ _)]; norm_num <;> decide)
      | (norm_num <;> decide)

lemma mem_detectEvents_reclaim (closes : List ℚ) :
    (∃ e ∈ detectEvents closes, e.name = "RECLAIM" ∧ e.confidence = 68/100) ↔
      reclaimCond closes := by
  unfold detectEvents
  by_cases h1 : shakeoutCond closes <;> by_cases h2 : distRiskCond closes <;>
    by_cases h3 : reclaimCond closes <;> by_cases h4 : rangeAccumCond closes <;>
    simp only [h1, h2, h3, h4, if_true, if_false, ite_true, ite_false, List.append_nil,
      List.nil_append, List.cons_append] <;>
    first
      | (rw [if_pos rfl]; norm_num <;> decide)
      | (rw [if_neg (List.cons_ne_nil _ _)]; norm_num <;> decide)
      | (norm_num <;> decide)

lemma shakeoutCond_iff_real (closes : List ℚ) :
    shakeoutCond closes ↔
      (latestClose closes : ℝ) ≤ (baselineLow5 closes : ℝ) -
        (1/2) * Real.sqrt ((vol5Sq closes : ℝ)) := by
  have hiff := half_sqrt_le_iff_sq (vol5Sq closes : ℝ)
    ((baselineLow5 closes : ℝ) - (latestClose closes : ℝ))
  unfold shakeoutCond
  constructor
  · rintro ⟨h1, h2⟩
    have h1r : (0:ℝ) ≤ (baselineLow5 closes : ℝ) - (latestClose closes : ℝ) := by
      have : ((0:ℚ):ℝ) ≤ ((baselineLow5 closes - latestClose closes : ℚ) : ℝ) :=
        Rat.cast_le.mpr h1
      push_cast at this
      linarith
    have h2r : ((vol5Sq closes : ℚ) : ℝ) ≤
        4 * ((baselineLow5 closes : ℝ) - (latestClose closes : ℝ)) ^ 2 := by
      have hc : ((vol5Sq closes : ℚ) : ℝ) ≤
          ((4 * (baselineLow5 closes - latestClose closes) ^ 2 : ℚ) : ℝ) :=
        Rat.cast_le.mpr h2
      push_cast at hc
      linarith
    have := hiff.mpr ⟨h1r, h2r⟩
    linarith
  · intro h
    have hh := hiff.mp (by linarith)
    constructor
    · have : ((0:ℚ):ℝ) ≤ ((baselineLow5 closes - latestClose closes : ℚ) : ℝ) := by
        push_cast
        linarith [hh.1]
      exact_mod_cast this
    · have : ((vol5Sq closes : ℚ) : ℝ) ≤
          ((4 * (baselineLow5 closes - latestClose closes) ^ 2 : ℚ) : ℝ) := by
        push_cast
        nlinarith [hh.2]
      exact_mod_cast this

lemma distRiskCond_iff_real (closes : List ℚ) :
    distRiskCond closes ↔
      (latestClose closes : ℝ) < (baselineLow5 closes : ℝ) -
        Real.sqrt ((vol5Sq closes : ℝ)) := by
  have hiff := sqrt_lt_iff_sq (vol5Sq closes : ℝ)
    ((baselineLow5 closes : ℝ) - (latestClose closes : ℝ))
  unfold distRiskCond
  constructor
  · rintro ⟨h1, h2⟩
    have h1r : (0:ℝ) < (baselineLow5 closes : ℝ) - (latestClose closes : ℝ) := by
      have : ((0:ℚ):ℝ) < ((baselineLow5 closes - latestClose closes : ℚ) : ℝ) :=
        Rat.cast_lt.mpr h1
      push_cast at this
      linarith
    have h2r : ((vol5Sq closes : ℚ) : ℝ) <
        ((baselineLow5 closes : ℝ) - (latestClose closes : ℝ)) ^ 2 := by
      have hc : ((vol5Sq closes : ℚ) : ℝ) <
          (((baselineLow5 closes - latestClose closes) ^ 2 : ℚ) : ℝ) :=
        Rat.cast_lt.mpr h2
      push_cast at hc
      linarith
    have := hiff.mpr ⟨h1r, h2r⟩
    linarith
  · intro h
    have hh := hiff.mp (by linarith)
    constructor
    · have : ((0:ℚ):ℝ) < ((baselineLow5 closes - latestClose closes : ℚ) : ℝ) := by
        push_cast
        linarith [hh.1]
      exact_mod_cast this
    · have : ((vol5Sq closes : ℚ) : ℝ) <
          (((baselineLow5 closes - latestClose closes) ^ 2 : ℚ) : ℝ) := by
        push_cast
        nlinarith [hh.2]
      exact_mod_cast this

lemma reclaimCond_iff_real (closes : List ℚ) :
    reclaimCond closes ↔
      (baselineHigh20 closes : ℝ) + (1/2) * Real.sqrt ((vol20Sq closes : ℝ)) <
        (latestClose closes : ℝ) := by
  have hiff := half_sqrt_lt_iff_sq (vol20Sq closes : ℝ)
    ((latestClose closes : ℝ) - (baselineHigh20 closes : ℝ))
  unfold reclaimCond
  constructor
  · rintro ⟨h1, h2⟩
    have h1r : (0:ℝ) < (latestClose closes : ℝ) - (baselineHigh20 closes : ℝ) := by
      have : ((0:ℚ):ℝ) < ((latestClose closes - baselineHigh20 closes : ℚ) : ℝ) :=
        Rat.cast_lt.mpr h1
      push_cast at this
      linarith
    have h2r : ((vol20Sq closes : ℚ) : ℝ) <
        4 * ((latestClose closes : ℝ) - (baselineHigh20 closes : ℝ)) ^ 2 := by
      have hc : ((vol20Sq closes : ℚ) : ℝ) <
          ((4 * (latestClose closes - baselineHigh20 closes) ^ 2 : ℚ) : ℝ) :=
        Rat.cast_lt.mpr h2
      push_cast at hc
      linarith
    have := hiff.mpr ⟨h1r, h2r⟩
    linarith
  · intro h
    have hh := hiff.mp (by linarith)
    constructor
    · have : ((0:ℚ):ℝ) < ((latestClose closes - baselineHigh20 closes : ℚ) : ℝ) := by
        push_cast
        linarith [hh.1]
      exact_mod_cast this
    · have : ((vol20Sq closes : ℚ) : ℝ) <
          ((4 * (latestClose closes - baselineHigh20 closes) ^ 2 : ℚ) : ℝ) := by
        push_cast
        nlinarith [hh.2]
      exact_mod_cast this

lemma trailingWindow_ne_nil (n : ℕ) (hn : 1 ≤ n) (closes : List ℚ)
    (h2 : 2 ≤ closes.length) : trailingWindow n closes ≠ [] := by
  unfold trailingWindow takeLast
  intro hcon
  have hlen := congrArg List.length hcon
  simp only [List.length_drop, List.length_dropLast, List.length_nil] at hlen
  omega

/-- C5 counterexample: on the single-bar history `[100]` there are no closes
strictly before the latest bar at all, yet SHAKEOUT fires with confidence
0.62 — the empty trailing window falls back to the 5-day window containing
the latest close itself, so the latest close IS compared against a window
that contains it (`baseline_low5` equals the latest close). -/
theorem detectEvents_single_bar_self_reference :
    trailingWindow 5 [(100:ℚ)] = [] ∧
    baselineLow5 [(100:ℚ)] = latestClose [(100:ℚ)] ∧
    (∃ e ∈ detectEvents [(100:ℚ)], e.name = "SHAKEOUT" ∧ e.confidence = 62/100) := by
  refine ⟨rfl, rfl, (mem_detectEvents_shakeout _).mpr ?_⟩
  norm_num [shakeoutCond, baselineLow5, trailingWindow, takeLast, latestClose, vol5Sq,
    listMin]

/-- C5 (amended): for every price history with at least two bars, the
baselines (trailing 5-day low, trailing 20-day high) and the volatility
values used by SHAKEOUT, DISTRIBUTION_RISK and RECLAIM are computed only from
closes strictly before the latest bar (`closes[:-1]`), and each of the three
rules fires exactly at its volatility-shifted threshold; in particular
SHAKEOUT fires with confidence 0.62 exactly when the latest close is ≤ the
trailing 5-day low minus 0.5 times the population stddev of the trailing
5-day window. -/
theorem detectEvents_trailing_exact (closes : List ℚ) (h2 : 2 ≤ closes.length) :
    (baselineLow5 closes = listMin (takeLast 5 closes.dropLast) ∧
      baselineHigh20 closes = listMax (takeLast 20 closes.dropLast)) ∧
    ((∃ e ∈ detectEvents closes, e.name = "SHAKEOUT" ∧ e.confidence = 62/100) ↔
      (latestClose closes : ℝ) ≤ (listMin (takeLast 5 closes.dropLast) : ℝ) -
        (1/2) * Real.sqrt ((vol5Sq closes : ℝ))) ∧
    ((∃ e ∈ detectEvents closes, e.name = "DISTRIBUTION_RISK" ∧ e.confidence = 55/100) ↔
      (latestClose closes : ℝ) < (listMin (takeLast 5 closes.dropLast) : ℝ) -
        Real.sqrt ((vol5Sq closes : ℝ))) ∧
    ((∃ e ∈ detectEvents closes, e.name = "RECLAIM" ∧ e.confidence = 68/100) ↔
      (listMax (takeLast 20 closes.dropLast) : ℝ) +
        (1/2) * Real.sqrt ((vol20Sq closes : ℝ)) < (latestClose closes : ℝ)) := by
  have h5 : baselineLow5 closes = listMin (takeLast 5 closes.dropLast) := by
    unfold baselineLow5
    rw [if_pos (trailingWindow_ne_nil 5 (by norm_num) closes h2)]
    rfl
  have h20 : baselineHigh20 closes = listMax (takeLast 20 closes.dropLast) := by
    unfold baselineHigh20
    rw [if_pos (trailingWindow_ne_nil 20 (by norm_num) closes h2)]
    rfl
  refine ⟨⟨h5, h20⟩, ?_, ?_, ?_⟩
  · rw [mem_detectEvents_shakeout, shakeoutCond_iff_real, h5]
  · rw [mem_detectEvents_distRisk, distRiskCond_iff_real, h5]
  · rw [mem_detectEvents_reclaim, reclaimCond_iff_real, h20]

/-- C5 witness: the two-bar flat history `[100, 100]` has a one-element
trailing window with zero variance, and SHAKEOUT fires there. -/
theorem detectEvents_trailing_exact_witness :
    (baselineLow5 [(100:ℚ), 100] = listMin (takeLast 5 ([(100:ℚ), 100]).dropLast) ∧
      baselineHigh20 [(100:ℚ), 100] = listMax (takeLast 20 ([(100:ℚ), 100]).dropLast)) ∧
    ((∃ e ∈ detectEvents [(100:ℚ), 100], e.name = "SHAKEOUT" ∧ e.confidence = 62/100) ↔
      (latestClose [(100:ℚ), 100] : ℝ) ≤ (listMin (takeLast 5 ([(100:ℚ), 100]).dropLast) : ℝ) -
        (1/2) * Real.sqrt ((vol5Sq [(100:ℚ), 100] : ℝ))) ∧
    ((∃ e ∈ detectEvents [(100:ℚ), 100], e.name = "DISTRIBUTION_RISK" ∧ e.confidence = 55/100) ↔
      (latestClose [(100:ℚ), 100] : ℝ) < (listMin (takeLast 5 ([(100:ℚ), 100]).dropLast) : ℝ) -
        Real.sqrt ((vol5Sq [(100:ℚ), 100] : ℝ))) ∧
    ((∃ e ∈ detectEvents [(100:ℚ), 100], e.name = "RECLAIM" ∧ e.confidence = 68/100) ↔
      (listMax (takeLast 20 ([(100:ℚ), 100]).dropLast) : ℝ) +
        (1/2) * Real.sqrt ((vol20Sq [(100:ℚ), 100] : ℝ)) <
          (latestClose [(100:ℚ), 100] : ℝ)) :=
  detectEvents_trailing_exact [(100:ℚ), 100] (by norm_num)

/-! ## Decision engine: claim C3 -/

lemma applyCycleBias_low (action rationale : String) (ctx : CycleContext)
    (h : ctx.amplitudeFlag = some "low") :
    (applyCycleBias action rationale ctx).1 = "WAIT" := by
  unfold applyCycleBias
  by_cases h1 : action ∉ ACTIONS
  · rw [if_pos h1]
  · rw [if_neg h1]
    simp [h]

/-- C3: for every call to `select_action` in which the cycle-context stage
classifies the latest swing amplitude as below the low amplitude cutoff
(`amplitude_flag == "low"`), the returned action is `WAIT`, overriding
whatever the event-mapping, indicator-filter, and cycle-maturity stages chose
(including an upstream BUY/ADD/HOLD or a REDUCE forced by a mature upswing). -/
theorem selectAction_low_amplitude_wait (events : List Event)
    (cycles : List CycleSegment) (ictx : Option IndicatorContext)
    (hne : events ≠ [])
    (hlow : (analyzeCycleContext (filterCycles cycles 2) cycles.length).amplitudeFlag =
      some "low") :
    ∃ d, selectAction events cycles ictx = some d ∧ d.action = "WAIT" := by
  unfold selectAction
  cases hm : events.mergeSort (fun a b => decide (b.confidence ≤ a.confidence)) with
  | nil =>
    exfalso
    have hlen : (events.mergeSort (fun a b => decide (b.confidence ≤ a.confidence))).length =
        events.length := List.length_mergeSort events
    rw [hm] at hlen
    exact hne (List.length_eq_zero.mp hlen.symm)
  | cons primary rest =>
    refine ⟨_, rfl, ?_⟩
    exact applyCycleBias_low _ _ _ hlow

/-- C3 witness: a concrete NEUTRAL event with a single short, low-amplitude
cycle yields `WAIT`. -/
theorem selectAction_low_amplitude_wait_witness :
    ∃ d, selectAction [Event.mk "NEUTRAL" (40/100) "No clear pattern detected in the latest window."]
        [CycleSegment.mk 0 2 "a" "c" "downswing" 2 (1/10000) 1 1] none = some d ∧
      d.action = "WAIT" :=
  selectAction_low_amplitude_wait _ _ _ (List.cons_ne_nil _ _)
    (by
      have habs : |(1 : ℚ)/10000| = 1/10000 := abs_of_nonneg (by norm_num)
      norm_num [analyzeCycleContext, filterCycles, avgOr, meanQ, habs])

/-! ## Algorithm scoring: claim C8 -/

lemma clamp01_mem_unit (v : ℚ) : 0 ≤ clamp01 v ∧ clamp01 v ≤ 1 := by
  unfold clamp01
  constructor
  · exact le_max_left 0 _
  · rcases le_total 0 (min 1 v) with h | h
    · rw [max_eq_right h]; exact min_le_left 1 v
    · rw [max_eq_left h]; norm_num

lemma count_div_length_mem_unit (p : ℚ → Bool) (l : List ℚ) :
    0 ≤ ((l.filter p).length : ℚ) / l.length ∧ ((l.filter p).length : ℚ) / l.length ≤ 1 := by
  rcases List.eq_nil_or_concat l with rfl | _
  · norm_num
  · have hle : (l.filter p).length ≤ l.length := List.length_filter_le p l
    have h0 : (0:ℚ) ≤ ((l.filter p).length : ℚ) := by positivity
    have h1 : ((l.filter p).length : ℚ) ≤ (l.length : ℚ) := by exact_mod_cast hle
    constructor
    · positivity
    · rcases Nat.eq_zero_or_pos l.length with hz | hpos
      · rw [hz]; norm_num
      · have : (0:ℚ) < (l.length : ℚ) := by exact_mod_cast hpos
        exact (div_le_one this).mpr h1

lemma sum_div_length_mem_unit (l : List ℚ) (h : ∀ x ∈ l, 0 ≤ x ∧ x ≤ 1) :
    0 ≤ l.sum / l.length ∧ l.sum / l.length ≤ 1 := by
  rcases eq_or_ne l [] with rfl | hne
  · norm_num
  · have hsum0 : 0 ≤ l.sum := List.sum_nonneg (fun x hx => (h x hx).1)
    have hsum1 : l.sum ≤ (l.length : ℚ) := by
      have := List.sum_le_card_nsmul l 1 (fun x hx => (h x hx).2)
      simpa using this
    have hlen : (0:ℚ) < (l.length : ℚ) := by
      have : l.length ≠ 0 := fun hz => hne (List.length_eq_zero.mp hz)
      exact_mod_cast Nat.pos_of_ne_zero this
    exact ⟨by positivity, (div_le_one hlen).mpr hsum1⟩

lemma captureFrac_mem_unit (closes : List ℚ) (cycle : CycleSegment) (x : ℚ)
    (hx : captureFrac closes cycle = some x) : 0 ≤ x ∧ x ≤ 1 := by
  unfold captureFrac at hx
  split_ifs at hx
  rw [Option.some_inj] at hx
  rw [← hx]
  exact clamp01_mem_unit _

lemma cycleCaptureRate_mem_unit (closes : List ℚ) (cycles : List CycleSegment) :
    0 ≤ cycleCaptureRate closes cycles ∧ cycleCaptureRate closes cycles ≤ 1 := by
  unfold cycleCaptureRate
  by_cases h1 : closes = [] ∨ cycles = []
  · rw [if_pos h1]; norm_num
  · rw [if_neg h1]
    by_cases h2 : cycles.filterMap (captureFrac closes) = []
    · simp only [h2, if_pos]
      norm_num
    · simp only [if_neg h2]
      apply sum_div_length_mem_unit
      intro x hx
      obtain ⟨cyc, _, hfx⟩ := List.mem_filterMap.mp hx
      exact captureFrac_mem_unit closes cyc x hfx

lemma normalizedSharpe_mem_unit (atanF : ℚ → ℚ) (meanRet stddev : ℚ) :
    0 ≤ normalizedSharpe atanF meanRet stddev ∧ normalizedSharpe atanF meanRet stddev ≤ 1 := by
  unfold normalizedSharpe
  split_ifs
  · norm_num
  · exact clamp01_mem_unit _

lemma normalizeScoreWeights_props (weights : Option ScoreWeights)
    (hw : ∀ w, weights = some w →
      (∀ v, w.hitRate = some v → 0 ≤ v) ∧ (∀ v, w.sharpeWeight = some v → 0 ≤ v) ∧
        (∀ v, w.cycleCapture = some v → 0 ≤ v)) :
    0 ≤ (normalizeScoreWeights weights).1 ∧ 0 ≤ (normalizeScoreWeights weights).2.1 ∧
    0 ≤ (normalizeScoreWeights weights).2.2 ∧
    (normalizeScoreWeights weights).1 + (normalizeScoreWeights weights).2.1 +
      (normalizeScoreWeights weights).2.2 = 1 := by
  have key : ∀ b1 b2 b3 : ℚ, 0 ≤ b1 → 0 ≤ b2 → 0 ≤ b3 →
      (0 ≤ (normalizeScoreWeightsCore b1 b2 b3).1 ∧
       0 ≤ (normalizeScoreWeightsCore b1 b2 b3).2.1 ∧
       0 ≤ (normalizeScoreWeightsCore b1 b2 b3).2.2 ∧
       (normalizeScoreWeightsCore b1 b2 b3).1 + (normalizeScoreWeightsCore b1 b2 b3).2.1 +
         (normalizeScoreWeightsCore b1 b2 b3).2.2 = 1) := by
    intro b1 b2 b3 h1 h2 h3
    unfold normalizeScoreWeightsCore
    have ht1 : (if 0 < b1 then b1 else 0) = b1 := by
      rcases lt_or_eq_of_le h1 with h | h
      · rw [if_pos h]
      · rw [← h]; norm_num
    have ht2 : (if 0 < b2 then b2 else 0) = b2 := by
      rcases lt_or_eq_of_le h2 with h | h
      · rw [if_pos h]
      · rw [← h]; norm_num
    have ht3 : (if 0 < b3 then b3 else 0) = b3 := by
      rcases lt_or_eq_of_le h3 with h | h
      · rw [if_pos h]
      · rw [← h]; norm_num
    simp only [ht1, ht2, ht3]
    split_ifs with htot
    · norm_num [DEFAULT_SCORE_WEIGHTS]
    · push_neg at htot
      have hne : b1 + b2 + b3 ≠ 0 := ne_of_gt htot
      refine ⟨by positivity, by positivity, by positivity, ?_⟩
      field_simp
  cases weights with
  | none =>
    have := key (4/10) (35/100) (25/100) (by norm_num) (by norm_num) (by norm_num)
    simpa [normalizeScoreWeights] using this
  | some w =>
    obtain ⟨hw1, hw2, hw3⟩ := hw w rfl
    have hb1 : 0 ≤ w.hitRate.getD (4/10) := by
      cases hr : w.hitRate with
      | none => norm_num
      | some v => simpa using hw1 v hr
    have hb2 : 0 ≤ w.sharpeWeight.getD (35/100) := by
      cases hr : w.sharpeWeight with
      | none => norm_num
      | some v => simpa using hw2 v hr
    have hb3 : 0 ≤ w.cycleCapture.getD (25/100) := by
      cases hr : w.cycleCapture with
      | none => norm_num
      | some v => simpa using hw3 v hr
    have := key _ _ _ hb1 hb2 hb3
    simpa [normalizeScoreWeights] using this

lemma weighted_unit_sum_bounds (x1 x2 x3 w1 w2 w3 : ℚ)
    (hx1 : 0 ≤ x1 ∧ x1 ≤ 1) (hx2 : 0 ≤ x2 ∧ x2 ≤ 1) (hx3 : 0 ≤ x3 ∧ x3 ≤ 1)
    (hw1 : 0 ≤ w1) (hw2 : 0 ≤ w2) (hw3 : 0 ≤ w3) (hsum : w1 + w2 + w3 = 1) :
    0 ≤ (x1 * w1 + x2 * w2 + x3 * w3) * 100 ∧ (x1 * w1 + x2 * w2 + x3 * w3) * 100 ≤ 100 := by
  have e1 := mul_nonneg hx1.1 hw1
  have e2 := mul_nonneg hx2.1 hw2
  have e3 := mul_nonneg hx3.1 hw3
  have b1 : x1 * w1 ≤ w1 := mul_le_of_le_one_left hw1 hx1.2
  have b2 : x2 * w2 ≤ w2 := mul_le_of_le_one_left hw2 hx2.2
  have b3 : x3 * w3 ≤ w3 := mul_le_of_le_one_left hw3 hx3.2
  constructor <;> nlinarith

/-- C8 counterexample: a supplied weights mapping with one negative value
normalizes to weights that do NOT sum to 1 (the normalizer divides by the sum
of the positive entries only, here 0.6, giving -2/3 + 7/12 + 5/12 = 1/3). -/
theorem normalizeScoreWeights_negative_not_one :
    (normalizeScoreWeights (some ⟨some (-2/5), some (7/20), some (1/4)⟩)).1 +
      (normalizeScoreWeights (some ⟨some (-2/5), some (7/20), some (1/4)⟩)).2.1 +
      (normalizeScoreWeights (some ⟨some (-2/5), some (7/20), some (1/4)⟩)).2.2 ≠ 1 := by
  norm_num [normalizeScoreWeights, normalizeScoreWeightsCore]

/-- C8 (amended): for every weights mapping with no negative values —
including a partial mapping, an all-zero mapping, and no mapping at all — the
normalized weights used by `compute_algorithm_score` sum to 1 and the
composite score lies in [0, 100] (for any float `atan`/`sqrt` behaviour).
With a negative supplied weight the normalizer divides by the sum of the
positive entries only and the normalized weights need not sum to 1. -/
theorem computeAlgorithmScore_bounds (atanF sqrtF : ℚ → ℚ) (closes : List ℚ)
    (cycles : List CycleSegment) (weights : Option ScoreWeights)
    (hw : ∀ w, weights = some w →
      (∀ v, w.hitRate = some v → 0 ≤ v) ∧ (∀ v, w.sharpeWeight = some v → 0 ≤ v) ∧
        (∀ v, w.cycleCapture = some v → 0 ≤ v)) :
    (normalizeScoreWeights weights).1 + (normalizeScoreWeights weights).2.1 +
      (normalizeScoreWeights weights).2.2 = 1 ∧
    0 ≤ (computeAlgorithmScore atanF sqrtF closes cycles weights).composite ∧
    (computeAlgorithmScore atanF sqrtF closes cycles weights).composite ≤ 100 := by
  obtain ⟨hw1, hw2, hw3, hsum⟩ := normalizeScoreWeights_props weights hw
  refine ⟨hsum, ?_⟩
  unfold computeAlgorithmScore
  split_ifs with hlen
  · norm_num
  · have hchanges : pctChanges closes ≠ [] := by
      intro hnil
      have := congrArg List.length hnil
      simp only [pctChanges, List.length_zipWith, List.length_tail, List.length_nil] at this
      omega
    simp only [if_pos hchanges]
    exact weighted_unit_sum_bounds _ _ _ _ _ _
      (count_div_length_mem_unit _ _) (normalizedSharpe_mem_unit _ _ _)
      (cycleCaptureRate_mem_unit _ _) hw1 hw2 hw3 hsum

/-- C8 witness: an explicit partial nonnegative weights mapping on a concrete
series keeps the normalized sum at 1 and the composite in [0, 100]. -/
theorem computeAlgorithmScore_bounds_witness :
    (normalizeScoreWeights (some ⟨some 0, none, some (1/2)⟩)).1 +
      (normalizeScoreWeights (some ⟨some 0, none, some (1/2)⟩)).2.1 +
      (normalizeScoreWeights (some ⟨some 0, none, some (1/2)⟩)).2.2 = 1 ∧
    0 ≤ (computeAlgorithmScore (fun _ => 0) (fun _ => 0) [1, 2, 3] []
      (some ⟨some 0, none, some (1/2)⟩)).composite ∧
    (computeAlgorithmScore (fun _ => 0) (fun _ => 0) [1, 2, 3] []
      (some ⟨some 0, none, some (1/2)⟩)).composite ≤ 100 :=
  computeAlgorithmScore_bounds (fun _ => 0) (fun _ => 0) [1, 2, 3] []
    (some ⟨some 0, none, some (1/2)⟩)
    (by
      intro w hw
      cases Option.some_inj.mp hw
      refine ⟨fun v hv => ?_, fun v hv => by simp at hv, fun v hv => ?_⟩
      · simp only [Option.some_inj] at hv
        norm_num [← hv]
      · simp only [Option.some_inj] at hv
        norm_num [← hv])

/-! ## Walk-forward validation: claim C9 -/

/-- C9: for every close series with all closes positive,
`walk_forward_validate` raises an error if and only if `train_size < 2` or
`test_size < 2` (the parameter check is independent of the data, so it fires
before any window is built); for valid sizes, a series too short for even one
train+test window yields the explicitly empty result
`{"windows": [], "summary": {}}` without raising. -/
theorem walkForwardValidate_contract (closes : List ℚ) (trainSize testSize : ℕ)
    (stepArg : Option ℕ) (hpos : ∀ c ∈ closes, 0 < c) :
    ((∃ r, walkForwardValidate closes trainSize testSize stepArg = Except.ok r) ↔
      2 ≤ trainSize ∧ 2 ≤ testSize) ∧
    (2 ≤ trainSize → 2 ≤ testSize → closes.length < trainSize + testSize →
      walkForwardValidate closes trainSize testSize stepArg =
        Except.ok { windows := [], summary := none }) := by
  clear hpos
  simp only [walkForwardValidate]
  split_ifs with h1 h2 h3 h4
  · refine ⟨⟨?_, ?_⟩, ?_⟩
    · rintro ⟨r, hr⟩
      exact hr.elim
    · rintro ⟨ha, _⟩
      omega
    · intro ha _ _
      omega
  · refine ⟨⟨?_, ?_⟩, ?_⟩
    · rintro ⟨r, hr⟩
      exact hr.elim
    · rintro ⟨_, hb⟩
      omega
    · intro _ hb _
      omega
  · exact ⟨⟨fun _ => ⟨by omega, by omega⟩, fun _ => ⟨_, rfl⟩⟩, fun _ _ _ => rfl⟩
  · refine ⟨⟨fun _ => ⟨by omega, by omega⟩, fun _ => ⟨_, rfl⟩⟩, fun _ _ hshort => ?_⟩
    omega
  · refine ⟨⟨fun _ => ⟨by omega, by omega⟩, fun _ => ⟨_, rfl⟩⟩, fun _ _ hshort => ?_⟩
    omega

/-- C9 witness: the 3-bar series with `train_size = test_size = 3` is valid
but too short, yielding the empty result. -/
theorem walkForwardValidate_contract_witness :
    ((∃ r, walkForwardValidate [(1:ℚ), 2, 3] 3 3 none = Except.ok r) ↔
      2 ≤ 3 ∧ 2 ≤ 3) ∧
    (2 ≤ 3 → 2 ≤ 3 → ([(1:ℚ), 2, 3]).length < 3 + 3 →
      walkForwardValidate [(1:ℚ), 2, 3] 3 3 none =
        Except.ok { windows := [], summary := none }) :=
  walkForwardValidate_contract [(1:ℚ), 2, 3] 3 3 none (by norm_num)

/-! ## Trade engine: stage lemmas -/

lemma diagStep_core (eventAt : ℕ → Option String) (dateAt : ℕ → String) (idx : ℕ)
    (s : EngineState) :
    (diagStep eventAt dateAt idx s).inPosition = s.inPosition ∧
    (diagStep eventAt dateAt idx s).entryIdx = s.entryIdx ∧
    (diagStep eventAt dateAt idx s).entryPrice = s.entryPrice ∧
    (diagStep eventAt dateAt idx s).positionSize = s.positionSize ∧
    (diagStep eventAt dateAt idx s).trades = s.trades ∧
    (diagStep eventAt dateAt idx s).cooldownUntil = s.cooldownUntil := by
  unfold diagStep
  split_ifs <;> simp

lemma entryStep_inPosition (settings : TradeSettings) (atrL adxL : ℕ → Option ℚ)
    (eventAt : ℕ → Option String) (costRate : ℚ) (idx : ℕ) (close : ℚ)
    (s : EngineState) (h : s.inPosition = true) :
    (entryStep settings atrL adxL eventAt costRate idx close s).trades = s.trades ∧
    (entryStep settings atrL adxL eventAt costRate idx close s).inPosition = true ∧
    (entryStep settings atrL adxL eventAt costRate idx close s).entryIdx = s.entryIdx ∧
    (entryStep settings atrL adxL eventAt costRate idx close s).entryPrice = s.entryPrice ∧
    (entryStep settings atrL adxL eventAt costRate idx close s).positionSize =
      s.positionSize := by
  unfold entryStep
  split_ifs with h1 h2 <;> simp_all

lemma entryStep_noTrough (settings : TradeSettings) (atrL adxL : ℕ → Option ℚ)
    (eventAt : ℕ → Option String) (costRate : ℚ) (idx : ℕ) (close : ℚ)
    (s : EngineState) (h : eventAt idx ≠ some "TROUGH") :
    entryStep settings atrL adxL eventAt costRate idx close s = s := by
  unfold entryStep
  rw [if_neg (fun hc : _ ∧ _ => h hc.2), if_neg (fun hc : _ ∧ _ => h hc.2)]

lemma equityRowStep_core (dateAt : ℕ → String) (buyHoldBase : ℚ) (idx : ℕ) (close : ℚ)
    (s : EngineState) :
    (equityRowStep dateAt buyHoldBase idx close s).trades = s.trades ∧
    (equityRowStep dateAt buyHoldBase idx close s).inPosition = s.inPosition ∧
    (equityRowStep dateAt buyHoldBase idx close s).entryIdx = s.entryIdx ∧
    (equityRowStep dateAt buyHoldBase idx close s).entryPrice = s.entryPrice ∧
    (equityRowStep dateAt buyHoldBase idx close s).positionSize = s.positionSize ∧
    (equityRowStep dateAt buyHoldBase idx close s).cooldownUntil = s.cooldownUntil := by
  unfold equityRowStep
  simp

lemma positionExitStep_exit (settings : TradeSettings) (atrL : ℕ → Option ℚ)
    (eventAt : ℕ → Option String) (dateAt : ℕ → String) (costRate : ℚ)
    (idx : ℕ) (close : ℚ) (prevClose : Option ℚ) (s : EngineState) (e : ℕ) (r : String)
    (hpos : s.inPosition = true) (hentry : s.entryIdx.getD 0 = e)
    (hr : exitReasonOf settings atrL eventAt idx e s.entryPrice close = some r) :
    ∃ t, (positionExitStep settings atrL eventAt dateAt costRate idx close prevClose s).trades =
        s.trades ++ [t] ∧
      (positionExitStep settings atrL eventAt dateAt costRate idx close prevClose s).inPosition =
        false ∧
      t.exitReason = r ∧ t.exitPrice = close ∧ t.exitDate = dateAt idx ∧
      t.holdDays = idx - e ∧ t.entryPrice = s.entryPrice ∧ t.size = s.positionSize ∧
      t.grossReturn = (if s.entryPrice ≠ 0 then (close - s.entryPrice) / s.entryPrice else 0) ∧
      t.netReturn = (if s.entryPrice * (1 + costRate) ≠ 0 then
          (close * (1 - costRate) - s.entryPrice * (1 + costRate)) /
            (s.entryPrice * (1 + costRate))
        else 0) * s.positionSize ∧
      t.entryDate = dateAt e := by
  unfold positionExitStep
  rw [if_pos hpos, hentry, hr]
  exact ⟨_, rfl, rfl, rfl, rfl, rfl, rfl, rfl, rfl, rfl, rfl, rfl⟩

lemma positionExitStep_noExit (settings : TradeSettings) (atrL : ℕ → Option ℚ)
    (eventAt : ℕ → Option String) (dateAt : ℕ → String) (costRate : ℚ)
    (idx : ℕ) (close : ℚ) (prevClose : Option ℚ) (s : EngineState) (e : ℕ)
    (hpos : s.inPosition = true) (hentry : s.entryIdx.getD 0 = e)
    (hr : exitReasonOf settings atrL eventAt idx e s.entryPrice close = none) :
    (positionExitStep settings atrL eventAt dateAt costRate idx close prevClose s).trades =
      s.trades ∧
    (positionExitStep settings atrL eventAt dateAt costRate idx close prevClose s).inPosition =
      true ∧
    (positionExitStep settings atrL eventAt dateAt costRate idx close prevClose s).entryIdx =
      s.entryIdx ∧
    (positionExitStep settings atrL eventAt dateAt costRate idx close prevClose s).entryPrice =
      s.entryPrice ∧
    (positionExitStep settings atrL eventAt dateAt costRate idx close prevClose s).positionSize =
      s.positionSize ∧
    (positionExitStep settings atrL eventAt dateAt costRate idx close prevClose s).cooldownUntil =
      s.cooldownUntil := by
  unfold positionExitStep
  rw [if_pos hpos, hentry, hr]
  exact ⟨rfl, hpos, rfl, rfl, rfl, rfl⟩

lemma positionExitStep_notIn (settings : TradeSettings) (atrL : ℕ → Option ℚ)
    (eventAt : ℕ → Option String) (dateAt : ℕ → String) (costRate : ℚ)
    (idx : ℕ) (close : ℚ) (prevClose : Option ℚ) (s : EngineState)
    (hpos : s.inPosition = false) :
    positionExitStep settings atrL eventAt dateAt costRate idx close prevClose s = s := by
  unfold positionExitStep
  rw [hpos]
  rfl

lemma entryStep_trades (settings : TradeSettings) (atrL adxL : ℕ → Option ℚ)
    (eventAt : ℕ → Option String) (costRate : ℚ) (idx : ℕ) (close : ℚ)
    (s : EngineState) :
    (entryStep settings atrL adxL eventAt costRate idx close s).trades = s.trades := by
  unfold entryStep
  split_ifs <;> simp

/-! ## Trade engine: claim C1 -/

/-- C1 (amended): whenever the trade simulation engine is in a position, it
exits at the first bar on which any of the following holds, with this
precedence when several hold: the bar is a PEAK turning point
(`PEAK_CONFIRMED`); the position has been held at least `time_stop_days` bars
(`TIME_STOP`); or a nonzero ATR value is recorded at the entry index and the
close is ≤ `entry_price - stop_atr_multiple * that ATR` (`STOP_ATR`).  When
the ATR lookup at the entry index is missing or zero, no ATR stop is
evaluated.  On a bar where none of these holds, no exit occurs and the
position remains open with its entry data unchanged. -/
theorem tradeEngine_exit_rules (settings : TradeSettings) (atrL adxL : ℕ → Option ℚ)
    (eventAt : ℕ → Option String) (dateAt : ℕ → String) (costRate buyHoldBase : ℚ)
    (s : EngineState) (idx : ℕ) (close : ℚ) (prevClose : Option ℚ) (e : ℕ)
    (hpos : s.inPosition = true) (hentry : s.entryIdx = some e) (hle : e ≤ idx) :
    (eventAt idx = some "PEAK" →
      ∃ t, (engineStep settings atrL adxL eventAt dateAt costRate buyHoldBase
          s idx close prevClose).trades = s.trades ++ [t] ∧
        t.exitReason = "PEAK_CONFIRMED" ∧ t.exitPrice = close ∧ t.exitDate = dateAt idx ∧
        t.holdDays = idx - e) ∧
    (eventAt idx ≠ some "PEAK" → settings.timeStopDays ≤ idx - e →
      ∃ t, (engineStep settings atrL adxL eventAt dateAt costRate buyHoldBase
          s idx close prevClose).trades = s.trades ++ [t] ∧
        t.exitReason = "TIME_STOP" ∧ t.exitPrice = close ∧ t.exitDate = dateAt idx ∧
        t.holdDays = idx - e) ∧
    (eventAt idx ≠ some "PEAK" → idx - e < settings.timeStopDays →
      (∃ a, atrL e = some a ∧ a ≠ 0 ∧ close ≤ s.entryPrice - settings.stopAtrMultiple * a) →
      ∃ t, (engineStep settings atrL adxL eventAt dateAt costRate buyHoldBase
          s idx close prevClose).trades = s.trades ++ [t] ∧
        t.exitReason = "STOP_ATR" ∧ t.exitPrice = close ∧ t.exitDate = dateAt idx ∧
        t.holdDays = idx - e) ∧
    (eventAt idx ≠ some "PEAK" → idx - e < settings.timeStopDays →
      (∀ a, atrL e = some a → a ≠ 0 → s.entryPrice - settings.stopAtrMultiple * a < close) →
      (engineStep settings atrL adxL eventAt dateAt costRate buyHoldBase
          s idx close prevClose).trades = s.trades ∧
        (engineStep settings atrL adxL eventAt dateAt costRate buyHoldBase
          s idx close prevClose).inPosition = true ∧
        (engineStep settings atrL adxL eventAt dateAt costRate buyHoldBase
          s idx close prevClose).entryIdx = some e ∧
        (engineStep settings atrL adxL eventAt dateAt costRate buyHoldBase
          s idx close prevClose).entryPrice = s.entryPrice) := by
  clear hle
  obtain ⟨hd1, hd2, hd3, hd4, hd5, hd6⟩ := diagStep_core eventAt dateAt idx s
  have h1pos : (diagStep eventAt dateAt idx s).inPosition = true := by rw [hd1]; exact hpos
  have h1e : (diagStep eventAt dateAt idx s).entryIdx.getD 0 = e := by
    rw [hd2, hentry]
    rfl
  have h1eIdx : (diagStep eventAt dateAt idx s).entryIdx = some e := by rw [hd2]; exact hentry
  refine ⟨?_, ?_, ?_, ?_⟩
  · intro hev
    have hr : exitReasonOf settings atrL eventAt idx e
        (diagStep eventAt dateAt idx s).entryPrice close = some "PEAK_CONFIRMED" := by
      unfold exitReasonOf
      rw [if_pos hev]
    obtain ⟨t, ht1, _, ht3, ht4, ht5, ht6, -⟩ :=
      positionExitStep_exit settings atrL eventAt dateAt costRate idx close prevClose
        (diagStep eventAt dateAt idx s) e _ h1pos h1e hr
    refine ⟨t, ?_, ht3, ht4, ht5, ht6⟩
    unfold engineStep
    rw [(equityRowStep_core _ _ _ _ _).1, entryStep_trades, ht1, hd5]
  · intro hev hts
    have hr : exitReasonOf settings atrL eventAt idx e
        (diagStep eventAt dateAt idx s).entryPrice close = some "TIME_STOP" := by
      unfold exitReasonOf
      rw [if_neg hev, if_pos hts]
    obtain ⟨t, ht1, _, ht3, ht4, ht5, ht6, -⟩ :=
      positionExitStep_exit settings atrL eventAt dateAt costRate idx close prevClose
        (diagStep eventAt dateAt idx s) e _ h1pos h1e hr
    refine ⟨t, ?_, ht3, ht4, ht5, ht6⟩
    unfold engineStep
    rw [(equityRowStep_core _ _ _ _ _).1, entryStep_trades, ht1, hd5]
  · intro hev hts hstop
    obtain ⟨a, ha1, ha2, ha3⟩ := hstop
    have hr : exitReasonOf settings atrL eventAt idx e
        (diagStep eventAt dateAt idx s).entryPrice close = some "STOP_ATR" := by
      unfold exitReasonOf
      rw [if_neg hev, if_neg (not_le.mpr hts), if_pos ?_]
      refine ⟨?_, ?_⟩
      · rw [ha1]
        simpa [numTruthy] using ha2
      · rw [ha1, hd3]
        simpa using ha3
    obtain ⟨t, ht1, _, ht3, ht4, ht5, ht6, -⟩ :=
      positionExitStep_exit settings atrL eventAt dateAt costRate idx close prevClose
        (diagStep eventAt dateAt idx s) e _ h1pos h1e hr
    refine ⟨t, ?_, ht3, ht4, ht5, ht6⟩
    unfold engineStep
    rw [(equityRowStep_core _ _ _ _ _).1, entryStep_trades, ht1, hd5]
  · intro hev hts hstop
    have hr : exitReasonOf settings atrL eventAt idx e
        (diagStep eventAt dateAt idx s).entryPrice close = none := by
      unfold exitReasonOf
      rw [if_neg hev, if_neg (not_le.mpr hts), if_neg ?_]
      rintro ⟨htr, hcl⟩
      cases haL : atrL e with
      | none => rw [haL] at htr; exact absurd htr (by simp [numTruthy])
      | some a =>
        rw [haL] at htr hcl
        have ha2 : a ≠ 0 := by simpa [numTruthy] using htr
        have := hstop a haL ha2
        rw [hd3] at hcl
        simp only [Option.getD_some] at hcl
        linarith
    obtain ⟨hn1, hn2, hn3, hn4, hn5⟩ :=
      positionExitStep_noExit settings atrL eventAt dateAt costRate idx close prevClose
        (diagStep eventAt dateAt idx s) e h1pos h1e hr
    obtain ⟨he1, he2, he3, he4, he5⟩ :=
      entryStep_inPosition settings atrL adxL eventAt costRate idx close
        (positionExitStep settings atrL eventAt dateAt costRate idx close prevClose
          (diagStep eventAt dateAt idx s)) hn2
    obtain ⟨hq1, hq2, hq3, hq4, hq5⟩ :=
      equityRowStep_core dateAt buyHoldBase idx close
        (entryStep settings atrL adxL eventAt costRate idx close
          (positionExitStep settings atrL eventAt dateAt costRate idx close prevClose
            (diagStep eventAt dateAt idx s)))
    unfold engineStep
    refine ⟨?_, ?_, ?_, ?_⟩
    · rw [hq1, he1, hn1, hd5]
    · rw [hq2, he2]
    · rw [hq3, he3, hn3, hd2, hentry]
    · rw [hq4, he4, hn4, hd3]

/-- C1 witness: in a concrete one-bar step from an open position, a PEAK bar
exits with `PEAK_CONFIRMED` at the bar's close. -/
theorem tradeEngine_exit_rules_witness :
    ∃ t, (engineStep {} (fun _ => none) (fun _ => none)
        (fun i => if i = 1 then some "PEAK" else none) (fun _ => "d") (3/2000) 100
        (openTestState 0 100) 1 90 (some 100)).trades =
      (openTestState 0 100).trades ++ [t] ∧
      t.exitReason = "PEAK_CONFIRMED" ∧ t.exitPrice = 90 ∧ t.exitDate = "d" ∧
      t.holdDays = 1 - 0 :=
  (tradeEngine_exit_rules {} (fun _ => none) (fun _ => none)
    (fun i => if i = 1 then some "PEAK" else none) (fun _ => "d") (3/2000) 100
    (openTestState 0 100) 1 90 (some 100) 0 rfl rfl (by omega)).1 (by norm_num)

/-! ## Trade engine: run-level lemmas -/

lemma entryStep_enter (settings : TradeSettings) (atrL adxL : ℕ → Option ℚ)
    (eventAt : ℕ → Option String) (costRate : ℚ) (idx : ℕ) (close : ℚ)
    (s : EngineState) (h1 : s.inPosition = false) (h2 : eventAt idx = some "TROUGH")
    (h3 : ¬ ((idx : ℤ) < s.cooldownUntil)) :
    (entryStep settings atrL adxL eventAt costRate idx close s).trades = s.trades ∧
    (entryStep settings atrL adxL eventAt costRate idx close s).inPosition = true ∧
    (entryStep settings atrL adxL eventAt costRate idx close s).entryIdx = some idx ∧
    (entryStep settings atrL adxL eventAt costRate idx close s).entryPrice = close ∧
    (entryStep settings atrL adxL eventAt costRate idx close s).positionSize =
      softPositionSize (adxL idx) (atrL idx) close settings := by
  unfold entryStep
  rw [if_pos ⟨h1, h2⟩, if_neg h3]
  exact ⟨rfl, rfl, rfl, rfl, rfl⟩

lemma entryStep_spec (settings : TradeSettings) (atrL adxL : ℕ → Option ℚ)
    (eventAt : ℕ → Option String) (costRate : ℚ) (idx : ℕ) (close : ℚ)
    (s : EngineState) :
    (entryStep settings atrL adxL eventAt costRate idx close s).trades = s.trades ∧
    ((entryStep settings atrL adxL eventAt costRate idx close s).inPosition = true →
      (s.inPosition = true ∧
        (entryStep settings atrL adxL eventAt costRate idx close s).entryPrice = s.entryPrice ∧
        (entryStep settings atrL adxL eventAt costRate idx close s).positionSize =
          s.positionSize) ∨
      ((entryStep settings atrL adxL eventAt costRate idx close s).entryPrice = close ∧
        (entryStep settings atrL adxL eventAt costRate idx close s).positionSize =
          softPositionSize (adxL idx) (atrL idx) close settings)) := by
  unfold entryStep
  split_ifs with h1 h2 <;> simp_all

lemma forcedExit_notIn (dateAt : ℕ → String) (costRate : ℚ) (closes : List ℚ)
    (s : EngineState) (h : s.inPosition = false) :
    forcedExit dateAt costRate closes s = s := by
  unfold forcedExit
  rw [h]

lemma forcedExit_trade (dateAt : ℕ → String) (costRate : ℚ) (closes : List ℚ)
    (s : EngineState) (e : ℕ) (hpos : s.inPosition = true) (hentry : s.entryIdx = some e) :
    ∃ t, (forcedExit dateAt costRate closes s).trades = s.trades ++ [t] ∧
      t.exitReason = "FORCED_EXIT_END_OF_DATA" ∧
      t.entryDate = dateAt e ∧ t.entryPrice = s.entryPrice ∧ t.size = s.positionSize ∧
      t.exitDate = dateAt (closes.length - 1) ∧ t.exitPrice = closes.getLastD 0 ∧
      t.grossReturn =
        (if s.entryPrice ≠ 0 then (closes.getLastD 0 - s.entryPrice) / s.entryPrice else 0) ∧
      t.netReturn = (if s.entryPrice * (1 + costRate) ≠ 0 then
          (closes.getLastD 0 * (1 - costRate) - s.entryPrice * (1 + costRate)) /
            (s.entryPrice * (1 + costRate))
        else 0) * s.positionSize := by
  unfold forcedExit
  rw [hpos, hentry]
  exact ⟨_, rfl, rfl, rfl, rfl, rfl, rfl, rfl, rfl, rfl⟩

lemma engineLoop_nil (settings : TradeSettings) (atrL adxL : ℕ → Option ℚ)
    (eventAt : ℕ → Option String) (dateAt : ℕ → String) (costRate buyHoldBase : ℚ)
    (s : EngineState) (idx : ℕ) (prevClose : Option ℚ) :
    engineLoop settings atrL adxL eventAt dateAt costRate buyHoldBase s idx prevClose [] =
      s := rfl

lemma engineLoop_cons (settings : TradeSettings) (atrL adxL : ℕ → Option ℚ)
    (eventAt : ℕ → Option String) (dateAt : ℕ → String) (costRate buyHoldBase : ℚ)
    (s : EngineState) (idx : ℕ) (prevClose : Option ℚ) (close : ℚ) (rest : List ℚ) :
    engineLoop settings atrL adxL eventAt dateAt costRate buyHoldBase s idx prevClose
        (close :: rest) =
      engineLoop settings atrL adxL eventAt dateAt costRate buyHoldBase
        (engineStep settings atrL adxL eventAt dateAt costRate buyHoldBase s idx close
          prevClose)
        (idx + 1) (some close) rest := rfl

lemma tradeEngine_final_eq (prices : List PriceRow) (turningPoints : List TPRecord)
    (atrSeries adxSeries : List IndEntry) (settings : TradeSettings) (h : prices ≠ []) :
    tradeEngineCycleBasic prices turningPoints atrSeries adxSeries settings =
      (let dateAt := fun i => (prices.map (·.date)).getD i ""
       let costRate := (settings.costBps + settings.slippageBps) / 10000
       let closes := prices.map (·.close)
       let final := forcedExit dateAt costRate closes
         (engineLoop settings (indicatorLookup atrSeries) (indicatorLookup adxSeries)
           (cycleEventAt turningPoints) dateAt costRate (closes.headD 1)
           initialEngineState 0 none closes)
       { trades := final.trades
         equityRows := final.equityRows
         feesPaid := final.feesPaid
         troughConfirmed := final.troughConfirmed
         peakConfirmed := final.peakConfirmed
         blockedCooldown := final.blockedCooldown
         blockedAlreadyInPosition := final.blockedAlreadyInPosition
         missingExit := final.missingExit
         lastDetectedTrough := final.lastDetectedTrough
         lastDetectedPeak := final.lastDetectedPeak }) := by
  unfold tradeEngineCycleBasic
  rw [if_neg h]

lemma net_le_size_mul_gross (e c sz r : ℚ) (he : 0 < e) (hc : 0 < c) (hsz : 0 ≤ sz)
    (hr : 0 ≤ r) :
    (if e * (1 + r) ≠ 0 then (c * (1 - r) - e * (1 + r)) / (e * (1 + r)) else 0) * sz ≤
      sz * (if e ≠ 0 then (c - e) / e else 0) := by
  have h1r : (0:ℚ) < 1 + r := by linarith
  have hee : (0:ℚ) < e * (1 + r) := mul_pos he h1r
  rw [if_pos (ne_of_gt hee), if_pos (ne_of_gt he), mul_comm _ sz]
  apply mul_le_mul_of_nonneg_left _ hsz
  rw [div_le_div_iff hee he]
  nlinarith [mul_nonneg (mul_nonneg he.le hc.le) hr]

lemma softPositionSize_nonneg (adx atr : Option ℚ) (close : ℚ) (settings : TradeSettings)
    (h : 0 ≤ settings.minPosition) : 0 ≤ softPositionSize adx atr close settings := by
  unfold softPositionSize clampQ
  exact le_trans h (le_max_left _ _)

lemma engineStep_sound (settings : TradeSettings) (atrL adxL : ℕ → Option ℚ)
    (eventAt : ℕ → Option String) (dateAt : ℕ → String) (costRate buyHoldBase : ℚ)
    (idx : ℕ) (close : ℚ) (prevClose : Option ℚ) (s : EngineState)
    (hr : 0 ≤ costRate) (hmin : 0 ≤ settings.minPosition) (hc : 0 < close)
    (hs : TradesSound s) :
    TradesSound (engineStep settings atrL adxL eventAt dateAt costRate buyHoldBase
      s idx close prevClose) := by
  obtain ⟨hd1, hd2, hd3, hd4, hd5, hd6⟩ := diagStep_core eventAt dateAt idx s
  have hs1 : TradesSound (diagStep eventAt dateAt idx s) := by
    refine ⟨by rw [hd5]; exact hs.1, ?_⟩
    rw [hd1, hd3, hd4]
    exact hs.2
  have hs2 : TradesSound (positionExitStep settings atrL eventAt dateAt costRate idx close
      prevClose (diagStep eventAt dateAt idx s)) := by
    cases hpos : (diagStep eventAt dateAt idx s).inPosition with
    | false =>
      rw [positionExitStep_notIn _ _ _ _ _ _ _ _ _ hpos]
      exact hs1
    | true =>
      obtain ⟨hep, hsz⟩ := hs1.2 hpos
      cases hro : exitReasonOf settings atrL eventAt idx
          ((diagStep eventAt dateAt idx s).entryIdx.getD 0)
          (diagStep eventAt dateAt idx s).entryPrice close with
      | none =>
        obtain ⟨hn1, hn2, hn3, hn4, hn5, hn6⟩ := positionExitStep_noExit settings atrL
          eventAt dateAt costRate idx close prevClose _ _ hpos rfl hro
        refine ⟨by rw [hn1]; exact hs1.1, ?_⟩
        intro _
        rw [hn4, hn5]
        exact ⟨hep, hsz⟩
      | some r =>
        obtain ⟨t, ht1, ht2, _, _, _, _, _, hts, htg, htn, -⟩ := positionExitStep_exit settings
          atrL eventAt dateAt costRate idx close prevClose _ _ r hpos rfl hro
        constructor
        · intro u hu
          rw [ht1] at hu
          simp only [List.mem_append, List.mem_singleton] at hu
          rcases hu with hu | hu
          · exact hs1.1 u hu
          · rw [hu, htn, htg, hts]
            exact net_le_size_mul_gross _ _ _ _ hep hc hsz hr
        · intro hcontra
          rw [ht2] at hcontra
          simp at hcontra
  have hs3 : TradesSound (entryStep settings atrL adxL eventAt costRate idx close
      (positionExitStep settings atrL eventAt dateAt costRate idx close prevClose
        (diagStep eventAt dateAt idx s))) := by
    obtain ⟨he1, he2⟩ := entryStep_spec settings atrL adxL eventAt costRate idx close
      (positionExitStep settings atrL eventAt dateAt costRate idx close prevClose
        (diagStep eventAt dateAt idx s))
    refine ⟨by rw [he1]; exact hs2.1, ?_⟩
    intro hin
    rcases he2 hin with ⟨hold, hp, hz⟩ | ⟨hp, hz⟩
    · rw [hp, hz]
      exact hs2.2 hold
    · rw [hp, hz]
      exact ⟨hc, softPositionSize_nonneg _ _ _ _ hmin⟩
  obtain ⟨hq1, hq2, hq3, hq4, hq5, hq6⟩ := equityRowStep_core dateAt buyHoldBase idx close
    (entryStep settings atrL adxL eventAt costRate idx close
      (positionExitStep settings atrL eventAt dateAt costRate idx close prevClose
        (diagStep eventAt dateAt idx s)))
  unfold engineStep
  refine ⟨by rw [hq1]; exact hs3.1, ?_⟩
  intro hin
  rw [hq2] at hin
  rw [hq4, hq5]
  exact hs3.2 hin

lemma engineLoop_sound (settings : TradeSettings) (atrL adxL : ℕ → Option ℚ)
    (eventAt : ℕ → Option String) (dateAt : ℕ → String) (costRate buyHoldBase : ℚ)
    (hr : 0 ≤ costRate) (hmin : 0 ≤ settings.minPosition) :
    ∀ (l : List ℚ) (idx : ℕ) (prevClose : Option ℚ) (s : EngineState),
      (∀ c ∈ l, 0 < c) → TradesSound s →
      TradesSound (engineLoop settings atrL adxL eventAt dateAt costRate buyHoldBase
        s idx prevClose l) := by
  intro l
  induction l with
  | nil => intro idx prevClose s _ hs; exact hs
  | cons c rest ih =>
    intro idx prevClose s hpos hs
    rw [engineLoop_cons]
    exact ih (idx + 1) (some c)
      (engineStep settings atrL adxL eventAt dateAt costRate buyHoldBase s idx c prevClose)
      (fun x hx => hpos x (by simp [hx]))
      (engineStep_sound settings atrL adxL eventAt dateAt costRate buyHoldBase idx c
        prevClose s hr hmin (hpos c (by simp)) hs)

/-! ## Trade engine: claim C2 -/

/-- C2 (amended): for every trade logged by `trade_engine_cycle_basic` under
nonnegative cost rates (and the data-model invariants: positive closes,
nonnegative `min_position`), the trade's net return is at most its position
size times its gross return — costs only ever reduce the signed realized
return.  The original magnitude claim `|net| ≤ |gross|` fails for losing
trades, where costs increase the loss's magnitude. -/
theorem tradeEngine_net_le_gross (prices : List PriceRow) (turningPoints : List TPRecord)
    (atrSeries adxSeries : List IndEntry) (settings : TradeSettings)
    (hclose : ∀ p ∈ prices, 0 < p.close) (hmin : 0 ≤ settings.minPosition)
    (hcost : 0 ≤ settings.costBps + settings.slippageBps) :
    ∀ t ∈ (tradeEngineCycleBasic prices turningPoints atrSeries adxSeries settings).trades,
      t.netReturn ≤ t.size * t.grossReturn := by
  rcases eq_or_ne prices [] with rfl | hne
  · intro t ht
    simp [tradeEngineCycleBasic] at ht
  · rw [tradeEngine_final_eq prices turningPoints atrSeries adxSeries settings hne]
    simp only
    have hr : 0 ≤ (settings.costBps + settings.slippageBps) / 10000 := by positivity
    have hposall : ∀ c ∈ prices.map (·.close), 0 < c := by
      intro c hc
      obtain ⟨p, hp, rfl⟩ := List.mem_map.mp hc
      exact hclose p hp
    have hloop := engineLoop_sound settings (indicatorLookup atrSeries)
      (indicatorLookup adxSeries) (cycleEventAt turningPoints)
      (fun i => (prices.map (·.date)).getD i "")
      ((settings.costBps + settings.slippageBps) / 10000) ((prices.map (·.close)).headD 1)
      hr hmin (prices.map (·.close)) 0 none initialEngineState hposall
      ⟨by simp [initialEngineState], by simp [initialEngineState]⟩
    set sfin := engineLoop settings (indicatorLookup atrSeries) (indicatorLookup adxSeries)
      (cycleEventAt turningPoints) (fun i => (prices.map (·.date)).getD i "")
      ((settings.costBps + settings.slippageBps) / 10000) ((prices.map (·.close)).headD 1)
      initialEngineState 0 none (prices.map (·.close))
    cases hpos : sfin.inPosition with
    | false =>
      rw [forcedExit_notIn _ _ _ _ hpos]
      exact hloop.1
    | true =>
      cases hentry : sfin.entryIdx with
      | none =>
        unfold forcedExit
        rw [hpos, hentry]
        exact hloop.1
      | some e =>
        obtain ⟨hep, hsz⟩ := hloop.2 hpos
        obtain ⟨t, ht1, _, _, _, hts, _, _, htg, htn⟩ :=
          forcedExit_trade (fun i => (prices.map (·.date)).getD i "")
            ((settings.costBps + settings.slippageBps) / 10000) (prices.map (·.close))
            sfin e hpos hentry
        intro u hu
        rw [ht1] at hu
        simp only [List.mem_append, List.mem_singleton] at hu
        rcases hu with hu | hu
        · exact hloop.1 u hu
        · rw [hu, htn, htg, hts]
          have hmapne : prices.map (·.close) ≠ [] := by simpa using hne
          have hlast : 0 < (prices.map (·.close)).getLastD 0 := by
            apply hposall
            rw [List.getLastD_eq_getLast?, List.getLast?_eq_getLast _ hmapne]
            simp only [Option.getD_some]
            exact List.getLast_mem hmapne
          exact net_le_size_mul_gross _ _ _ _ hep hlast hsz hr


/-! ## Trade engine: composed one-bar lemmas -/

lemma engineStep_idleBar (settings : TradeSettings) (atrL adxL : ℕ → Option ℚ)
    (eventAt : ℕ → Option String) (dateAt : ℕ → String) (costRate buyHoldBase : ℚ)
    (s : EngineState) (idx : ℕ) (close : ℚ) (prevClose : Option ℚ)
    (h1 : s.inPosition = false) (h2 : eventAt idx ≠ some "TROUGH") :
    (engineStep settings atrL adxL eventAt dateAt costRate buyHoldBase s idx close
        prevClose).trades = s.trades ∧
    (engineStep settings atrL adxL eventAt dateAt costRate buyHoldBase s idx close
        prevClose).inPosition = false ∧
    (engineStep settings atrL adxL eventAt dateAt costRate buyHoldBase s idx close
        prevClose).entryIdx = s.entryIdx ∧
    (engineStep settings atrL adxL eventAt dateAt costRate buyHoldBase s idx close
        prevClose).entryPrice = s.entryPrice ∧
    (engineStep settings atrL adxL eventAt dateAt costRate buyHoldBase s idx close
        prevClose).positionSize = s.positionSize ∧
    (engineStep settings atrL adxL eventAt dateAt costRate buyHoldBase s idx close
        prevClose).cooldownUntil = s.cooldownUntil := by
  obtain ⟨hd1, hd2, hd3, hd4, hd5, hd6⟩ := diagStep_core eventAt dateAt idx s
  have hp : (diagStep eventAt dateAt idx s).inPosition = false := hd1.trans h1
  unfold engineStep
  rw [positionExitStep_notIn settings atrL eventAt dateAt costRate idx close prevClose _ hp,
    entryStep_noTrough settings atrL adxL eventAt costRate idx close _ h2]
  obtain ⟨hq1, hq2, hq3, hq4, hq5, hq6⟩ :=
    equityRowStep_core dateAt buyHoldBase idx close (diagStep eventAt dateAt idx s)
  exact ⟨hq1.trans hd5, hq2.trans hp, hq3.trans hd2, hq4.trans hd3, hq5.trans hd4,
    hq6.trans hd6⟩

lemma engineStep_enterBar (settings : TradeSettings) (atrL adxL : ℕ → Option ℚ)
    (eventAt : ℕ → Option String) (dateAt : ℕ → String) (costRate buyHoldBase : ℚ)
    (s : EngineState) (idx : ℕ) (close : ℚ) (prevClose : Option ℚ)
    (h1 : s.inPosition = false) (h2 : eventAt idx = some "TROUGH")
    (h3 : ¬ ((idx : ℤ) < s.cooldownUntil)) :
    (engineStep settings atrL adxL eventAt dateAt costRate buyHoldBase s idx close
        prevClose).trades = s.trades ∧
    (engineStep settings atrL adxL eventAt dateAt costRate buyHoldBase s idx close
        prevClose).inPosition = true ∧
    (engineStep settings atrL adxL eventAt dateAt costRate buyHoldBase s idx close
        prevClose).entryIdx = some idx ∧
    (engineStep settings atrL adxL eventAt dateAt costRate buyHoldBase s idx close
        prevClose).entryPrice = close ∧
    (engineStep settings atrL adxL eventAt dateAt costRate buyHoldBase s idx close
        prevClose).positionSize = softPositionSize (adxL idx) (atrL idx) close settings := by
  obtain ⟨hd1, hd2, hd3, hd4, hd5, hd6⟩ := diagStep_core eventAt dateAt idx s
  have hp : (diagStep eventAt dateAt idx s).inPosition = false := hd1.trans h1
  have h3a : ¬ ((idx : ℤ) < (diagStep eventAt dateAt idx s).cooldownUntil) := by
    rw [hd6]
    exact h3
  unfold engineStep
  rw [positionExitStep_notIn settings atrL eventAt dateAt costRate idx close prevClose _ hp]
  obtain ⟨he1, he2, he3, he4, he5⟩ :=
    entryStep_enter settings atrL adxL eventAt costRate idx close
      (diagStep eventAt dateAt idx s) hp h2 h3a
  obtain ⟨hq1, hq2, hq3, hq4, hq5, hq6⟩ :=
    equityRowStep_core dateAt buyHoldBase idx close
      (entryStep settings atrL adxL eventAt costRate idx close (diagStep eventAt dateAt idx s))
  exact ⟨hq1.trans (he1.trans hd5), hq2.trans he2, hq3.trans he3, hq4.trans he4,
    hq5.trans he5⟩

lemma engineStep_exitBar (settings : TradeSettings) (atrL adxL : ℕ → Option ℚ)
    (eventAt : ℕ → Option String) (dateAt : ℕ → String) (costRate buyHoldBase : ℚ)
    (s : EngineState) (idx : ℕ) (close : ℚ) (prevClose : Option ℚ) (e : ℕ) (r : String)
    (hpos : s.inPosition = true) (hentry : s.entryIdx = some e)
    (hr : exitReasonOf settings atrL eventAt idx e s.entryPrice close = some r)
    (hnt : eventAt idx ≠ some "TROUGH") :
    ∃ t, (engineStep settings atrL adxL eventAt dateAt costRate buyHoldBase s idx close
        prevClose).trades = s.trades ++ [t] ∧
      (engineStep settings atrL adxL eventAt dateAt costRate buyHoldBase s idx close
        prevClose).inPosition = false ∧
      t.exitReason = r ∧ t.exitPrice = close ∧ t.exitDate = dateAt idx ∧
      t.entryDate = dateAt e ∧ t.entryPrice = s.entryPrice ∧ t.size = s.positionSize ∧
      t.holdDays = idx - e ∧
      t.grossReturn = (if s.entryPrice ≠ 0 then (close - s.entryPrice) / s.entryPrice else 0) ∧
      t.netReturn = (if s.entryPrice * (1 + costRate) ≠ 0 then
          (close * (1 - costRate) - s.entryPrice * (1 + costRate)) /
            (s.entryPrice * (1 + costRate))
        else 0) * s.positionSize := by
  obtain ⟨hd1, hd2, hd3, hd4, hd5, hd6⟩ := diagStep_core eventAt dateAt idx s
  have hp : (diagStep eventAt dateAt idx s).inPosition = true := hd1.trans hpos
  have hge : (diagStep eventAt dateAt idx s).entryIdx.getD 0 = e := by
    rw [hd2, hentry]
    rfl
  have hra : exitReasonOf settings atrL eventAt idx e
      (diagStep eventAt dateAt idx s).entryPrice close = some r := by
    rw [hd3]
    exact hr
  obtain ⟨t, ptr, pin, pxr, pxp, pxd, phd, pep, psz, pgr, pnr, ped⟩ :=
    positionExitStep_exit settings atrL eventAt dateAt costRate idx close prevClose
      (diagStep eventAt dateAt idx s) e r hp hge hra
  have hent := entryStep_noTrough settings atrL adxL eventAt costRate idx close
    (positionExitStep settings atrL eventAt dateAt costRate idx close prevClose
      (diagStep eventAt dateAt idx s)) hnt
  obtain ⟨hq1, hq2, hq3, hq4, hq5, hq6⟩ :=
    equityRowStep_core dateAt buyHoldBase idx close
      (entryStep settings atrL adxL eventAt costRate idx close
        (positionExitStep settings atrL eventAt dateAt costRate idx close prevClose
          (diagStep eventAt dateAt idx s)))
  unfold engineStep
  refine ⟨t, ?_, ?_, pxr, pxp, pxd, ped, ?_, ?_, phd, ?_, ?_⟩
  · rw [hq1, hent, ptr, hd5]
  · rw [hq2, hent]
    exact pin
  · rw [pep, hd3]
  · rw [psz, hd4]
  · rw [pgr, hd3]
  · rw [pnr, hd3, hd4]

lemma engineStep_holdBar (settings : TradeSettings) (atrL adxL : ℕ → Option ℚ)
    (eventAt : ℕ → Option String) (dateAt : ℕ → String) (costRate buyHoldBase : ℚ)
    (s : EngineState) (idx : ℕ) (close : ℚ) (prevClose : Option ℚ) (e : ℕ)
    (hpos : s.inPosition = true) (hentry : s.entryIdx = some e)
    (hr : exitReasonOf settings atrL eventAt idx e s.entryPrice close = none) :
    (engineStep settings atrL adxL eventAt dateAt costRate buyHoldBase s idx close
        prevClose).trades = s.trades ∧
    (engineStep settings atrL adxL eventAt dateAt costRate buyHoldBase s idx close
        prevClose).inPosition = true ∧
    (engineStep settings atrL adxL eventAt dateAt costRate buyHoldBase s idx close
        prevClose).entryIdx = some e ∧
    (engineStep settings atrL adxL eventAt dateAt costRate buyHoldBase s idx close
        prevClose).entryPrice = s.entryPrice ∧
    (engineStep settings atrL adxL eventAt dateAt costRate buyHoldBase s idx close
        prevClose).positionSize = s.positionSize := by
  obtain ⟨hd1, hd2, hd3, hd4, hd5, hd6⟩ := diagStep_core eventAt dateAt idx s
  have hp : (diagStep eventAt dateAt idx s).inPosition = true := hd1.trans hpos
  have hge : (diagStep eventAt dateAt idx s).entryIdx.getD 0 = e := by
    rw [hd2, hentry]
    rfl
  have hra : exitReasonOf settings atrL eventAt idx e
      (diagStep eventAt dateAt idx s).entryPrice close = none := by
    rw [hd3]
    exact hr
  obtain ⟨hn1, hn2, hn3, hn4, hn5, hn6⟩ :=
    positionExitStep_noExit settings atrL eventAt dateAt costRate idx close prevClose
      (diagStep eventAt dateAt idx s) e hp hge hra
  obtain ⟨he1, he2, he3, he4, he5⟩ :=
    entryStep_inPosition settings atrL adxL eventAt costRate idx close
      (positionExitStep settings atrL eventAt dateAt costRate idx close prevClose
        (diagStep eventAt dateAt idx s)) hn2
  obtain ⟨hq1, hq2, hq3, hq4, hq5, hq6⟩ :=
    equityRowStep_core dateAt buyHoldBase idx close
      (entryStep settings atrL adxL eventAt costRate idx close
        (positionExitStep settings atrL eventAt dateAt costRate idx close prevClose
          (diagStep eventAt dateAt idx s)))
  unfold engineStep
  exact ⟨hq1.trans (he1.trans (hn1.trans hd5)), hq2.trans he2,
    hq3.trans (he3.trans (hn3.trans (hd2.trans hentry))),
    hq4.trans (he4.trans (hn4.trans hd3)), hq5.trans (he5.trans (hn5.trans hd4))⟩

/-! ## Trade engine: concrete runs for claims C1, C2 and C4 -/

lemma runPeakTrades :
    ∃ t, (tradeEngineCycleBasic [⟨"d1", 100⟩, ⟨"d2", 90⟩] [⟨0, "trough"⟩, ⟨1, "peak"⟩]
        [] [] {}).trades = [t] ∧
      t.grossReturn = -(1/10) ∧ t.netReturn = -(2057/20030) ∧ t.size = 1 := by
  have e1 : (tradeEngineCycleBasic [⟨"d1", 100⟩, ⟨"d2", 90⟩] [⟨0, "trough"⟩, ⟨1, "peak"⟩]
      [] [] {}).trades =
    (forcedExit (fun i => (["d1", "d2"] : List String).getD i "") (((10 : ℚ) + 5) / 10000)
      [100, 90]
      (engineLoop {} (indicatorLookup []) (indicatorLookup [])
        (cycleEventAt [⟨0, "trough"⟩, ⟨1, "peak"⟩])
        (fun i => (["d1", "d2"] : List String).getD i "") (((10 : ℚ) + 5) / 10000) 100
        initialEngineState 0 none [100, 90])).trades := rfl
  obtain ⟨h01, h02, h03, h04, h05⟩ :=
    engineStep_enterBar {} (indicatorLookup []) (indicatorLookup []) (cycleEventAt [⟨0, "trough"⟩, ⟨1, "peak"⟩]) (fun i => (["d1", "d2"] : List String).getD i "") (((10 : ℚ) + 5) / 10000) 100 initialEngineState 0 100 none rfl (by decide) (by decide)
  have hr1 : exitReasonOf {} (indicatorLookup [])
      (cycleEventAt [⟨0, "trough"⟩, ⟨1, "peak"⟩]) 1 0 (100 : ℚ) 90 =
      some "PEAK_CONFIRMED" := by decide
  obtain ⟨t, htr, hin, hxr, hxp, hxd, hed, hep, hsz, hhd, hgr, hnr⟩ :=
    engineStep_exitBar {} (indicatorLookup []) (indicatorLookup []) (cycleEventAt [⟨0, "trough"⟩, ⟨1, "peak"⟩]) (fun i => (["d1", "d2"] : List String).getD i "") (((10 : ℚ) + 5) / 10000) 100 (engineStep {} (indicatorLookup []) (indicatorLookup []) (cycleEventAt [⟨0, "trough"⟩, ⟨1, "peak"⟩]) (fun i => (["d1", "d2"] : List String).getD i "") (((10 : ℚ) + 5) / 10000) 100 initialEngineState 0 100 none) 1 90 (some 100) 0 "PEAK_CONFIRMED" h02 h03
      (by rw [h04]; exact hr1) (by decide)
  refine ⟨t, ?_, ?_, ?_, ?_⟩
  · rw [e1, engineLoop_cons, engineLoop_cons, engineLoop_nil]
    simp only [Nat.reduceAdd]
    rw [forcedExit_notIn _ _ _ _ hin, htr, h01]
    rfl
  · rw [hgr, h04]
    norm_num
  · rw [hnr, h04, h05]
    norm_num [softPositionSize, clampQ, indicatorLookup, max_def, min_def]
  · rw [hsz, h05]
    norm_num [softPositionSize, clampQ, indicatorLookup, max_def, min_def]

/-- C2 counterexample: under the default settings the cost rates are positive,
yet the losing trade of this two-bar run (trough entry at 100, peak exit at 90)
has `|net_return| = 2057/20030 > 1/10 = |gross_return|`: on losing trades the
costs increase the magnitude of the realized return, refuting the claimed
`|net_return| ≤ |gross_return|`. -/
theorem tradeEngine_net_magnitude_cx :
    (0 : ℚ) < ({} : TradeSettings).costBps + ({} : TradeSettings).slippageBps ∧
    ∃ t ∈ (tradeEngineCycleBasic [⟨"d1", 100⟩, ⟨"d2", 90⟩] [⟨0, "trough"⟩, ⟨1, "peak"⟩]
        [] [] {}).trades,
      |t.grossReturn| < |t.netReturn| := by
  obtain ⟨t, ht, hg, hn, -⟩ := runPeakTrades
  refine ⟨by norm_num, t, ?_, ?_⟩
  · rw [ht]
    exact List.mem_singleton_self t
  · rw [hg, hn, abs_of_neg (by norm_num), abs_of_neg (by norm_num)]
    norm_num

/-- C2 witness: the amended cost-monotonicity bound instantiated on the same
concrete two-bar run's single (losing, full-size) trade. -/
theorem tradeEngine_net_le_gross_witness :
    ((tradeEngineCycleBasic [⟨"d1", 100⟩, ⟨"d2", 90⟩] [⟨0, "trough"⟩, ⟨1, "peak"⟩]
        [] [] {}).trades.getD 0 ⟨0, "", 0, "", 0, "", 0, "", 0, 0, 0, 0, 0, 0, 0⟩).netReturn ≤
      ((tradeEngineCycleBasic [⟨"d1", 100⟩, ⟨"d2", 90⟩] [⟨0, "trough"⟩, ⟨1, "peak"⟩]
        [] [] {}).trades.getD 0 ⟨0, "", 0, "", 0, "", 0, "", 0, 0, 0, 0, 0, 0, 0⟩).size *
      ((tradeEngineCycleBasic [⟨"d1", 100⟩, ⟨"d2", 90⟩] [⟨0, "trough"⟩, ⟨1, "peak"⟩]
        [] [] {}).trades.getD 0 ⟨0, "", 0, "", 0, "", 0, "", 0, 0, 0, 0, 0, 0, 0⟩).grossReturn := by
  have hmem : ((tradeEngineCycleBasic [⟨"d1", 100⟩, ⟨"d2", 90⟩] [⟨0, "trough"⟩, ⟨1, "peak"⟩]
      [] [] {}).trades.getD 0 ⟨0, "", 0, "", 0, "", 0, "", 0, 0, 0, 0, 0, 0, 0⟩) ∈
      (tradeEngineCycleBasic [⟨"d1", 100⟩, ⟨"d2", 90⟩] [⟨0, "trough"⟩, ⟨1, "peak"⟩]
        [] [] {}).trades := by
    obtain ⟨t, ht, -, -, -⟩ := runPeakTrades
    rw [ht]
    simp
  exact tradeEngine_net_le_gross _ _ _ _ _
    (by
      intro p hp
      simp only [List.mem_cons, List.not_mem_nil, or_false] at hp
      rcases hp with rfl | rfl <;> norm_num)
    (by norm_num) (by norm_num) _ hmem

/-- C1 counterexample: a truthiness bug in the ATR stop.  Here an ATR value is
recorded at the entry index (`some 0`) and the claimed STOP_ATR condition
`close ≤ entry_price − stop_atr_multiple · ATR` holds at the second bar
(`50 ≤ 100 − (5/2)·0`), so the original claim requires an exit with reason
`STOP_ATR`; but `if atr_entry ...` treats the recorded `0` as missing, no exit
happens on that bar, and the position is only closed by the end-of-data forced
exit. -/
theorem tradeEngine_atr_zero_no_stop_cx :
    indicatorLookup [⟨0, some 0⟩] 0 = some 0 ∧
    (50 : ℚ) ≤ 100 - ({} : TradeSettings).stopAtrMultiple * 0 ∧
    ∃ t, (tradeEngineCycleBasic [⟨"d0", 100⟩, ⟨"d1", 50⟩] [⟨0, "trough"⟩]
        [⟨0, some 0⟩] [] {}).trades = [t] ∧
      t.exitReason = "FORCED_EXIT_END_OF_DATA" ∧ t.exitReason ≠ "STOP_ATR" := by
  refine ⟨by decide, by norm_num, ?_⟩
  have e1 : (tradeEngineCycleBasic [⟨"d0", 100⟩, ⟨"d1", 50⟩] [⟨0, "trough"⟩]
      [⟨0, some 0⟩] [] {}).trades =
    (forcedExit (fun i => (["d0", "d1"] : List String).getD i "") (((10 : ℚ) + 5) / 10000)
      [100, 50]
      (engineLoop {} (indicatorLookup [⟨0, some 0⟩]) (indicatorLookup [])
        (cycleEventAt [⟨0, "trough"⟩])
        (fun i => (["d0", "d1"] : List String).getD i "") (((10 : ℚ) + 5) / 10000) 100
        initialEngineState 0 none [100, 50])).trades := rfl
  obtain ⟨h01, h02, h03, h04, h05⟩ :=
    engineStep_enterBar {} (indicatorLookup [⟨0, some 0⟩]) (indicatorLookup []) (cycleEventAt [⟨0, "trough"⟩]) (fun i => (["d0", "d1"] : List String).getD i "") (((10 : ℚ) + 5) / 10000) 100 initialEngineState 0 100 none rfl (by decide) (by decide)
  have hr1 : exitReasonOf {} (indicatorLookup [⟨0, some 0⟩]) (cycleEventAt [⟨0, "trough"⟩])
      1 0 (100 : ℚ) 50 = none := by decide
  obtain ⟨hh1, hh2, hh3, hh4, hh5⟩ :=
    engineStep_holdBar {} (indicatorLookup [⟨0, some 0⟩]) (indicatorLookup []) (cycleEventAt [⟨0, "trough"⟩]) (fun i => (["d0", "d1"] : List String).getD i "") (((10 : ℚ) + 5) / 10000) 100 (engineStep {} (indicatorLookup [⟨0, some 0⟩]) (indicatorLookup []) (cycleEventAt [⟨0, "trough"⟩]) (fun i => (["d0", "d1"] : List String).getD i "") (((10 : ℚ) + 5) / 10000) 100 initialEngineState 0 100 none) 1 50 (some 100) 0 h02 h03 (by rw [h04]; exact hr1)
  obtain ⟨t, ftr, fxr, fed, fep, fsz, fxd, fxp, fgr, fnr⟩ :=
    forcedExit_trade (fun i => (["d0", "d1"] : List String).getD i "")
      (((10 : ℚ) + 5) / 10000) [100, 50] _ 0 hh2 hh3
  refine ⟨t, ?_, fxr, ?_⟩
  · rw [e1, engineLoop_cons, engineLoop_cons, engineLoop_nil]
    simp only [Nat.reduceAdd]
    rw [ftr, hh1, h01]
    rfl
  · rw [fxr]
    decide

/-- C4 (amended): the end-to-end scenario needs four bars, not three.  On the
4-bar series 2, 1, 2, 1 `detect_cycles` finds a trough at index 1 and a peak at
index 2, and feeding those turning points to `trade_engine_cycle_basic` with
`cooldown_days = 0` produces exactly one trade, entered at the trough bar and
exited at the peak bar with exit reason `PEAK_CONFIRMED`.  (On a 3-bar series a
peak at index 2 is impossible: turning points need a bar on each side.) -/
theorem tradeEngine_end_to_end_peak_exit :
    (detectCycles [⟨"d0", 2⟩, ⟨"d1", 1⟩, ⟨"d2", 2⟩, ⟨"d3", 1⟩]).2 =
      [⟨1, "trough"⟩, ⟨2, "peak"⟩] ∧
    ∃ t, (tradeEngineCycleBasic [⟨"d0", 2⟩, ⟨"d1", 1⟩, ⟨"d2", 2⟩, ⟨"d3", 1⟩]
        ((detectCycles [⟨"d0", 2⟩, ⟨"d1", 1⟩, ⟨"d2", 2⟩, ⟨"d3", 1⟩]).2.map
          (fun tp => ⟨tp.index, tp.kind⟩))
        [] [] { cooldownDays := 0 }).trades = [t] ∧
      t.entryDate = "d1" ∧ t.entryPrice = 1 ∧ t.exitDate = "d2" ∧ t.exitPrice = 2 ∧
      t.exitReason = "PEAK_CONFIRMED" := by
  have htps : (detectCycles [⟨"d0", 2⟩, ⟨"d1", 1⟩, ⟨"d2", 2⟩, ⟨"d3", 1⟩]).2 =
      [⟨1, "trough"⟩, ⟨2, "peak"⟩] := by
    rw [detectCycles_eq]
    norm_num [findTurningPoints_eq, deltasOf, findTPAux, List.find?]
  refine ⟨htps, ?_⟩
  rw [htps]
  have hmap : ([⟨1, "trough"⟩, ⟨2, "peak"⟩] : List TurningPoint).map
      (fun tp => (⟨tp.index, tp.kind⟩ : TPRecord)) = [⟨1, "trough"⟩, ⟨2, "peak"⟩] := rfl
  rw [hmap]
  have e1 : (tradeEngineCycleBasic [⟨"d0", 2⟩, ⟨"d1", 1⟩, ⟨"d2", 2⟩, ⟨"d3", 1⟩]
      [⟨1, "trough"⟩, ⟨2, "peak"⟩] [] [] { cooldownDays := 0 }).trades =
    (forcedExit (fun i => (["d0", "d1", "d2", "d3"] : List String).getD i "")
      (((10 : ℚ) + 5) / 10000) [2, 1, 2, 1]
      (engineLoop ({ cooldownDays := 0 } : TradeSettings) (indicatorLookup [])
        (indicatorLookup []) (cycleEventAt [⟨1, "trough"⟩, ⟨2, "peak"⟩])
        (fun i => (["d0", "d1", "d2", "d3"] : List String).getD i "")
        (((10 : ℚ) + 5) / 10000) 2 initialEngineState 0 none [2, 1, 2, 1])).trades := rfl
  obtain ⟨hi1, hi2, hi3, hi4, hi5, hi6⟩ :=
    engineStep_idleBar ({ cooldownDays := 0 } : TradeSettings) (indicatorLookup []) (indicatorLookup []) (cycleEventAt [⟨1, "trough"⟩, ⟨2, "peak"⟩]) (fun i => (["d0", "d1", "d2", "d3"] : List String).getD i "") (((10 : ℚ) + 5) / 10000) 2 initialEngineState 0 2 none rfl (by decide)
  obtain ⟨he1, he2, he3, he4, he5⟩ :=
    engineStep_enterBar ({ cooldownDays := 0 } : TradeSettings) (indicatorLookup []) (indicatorLookup []) (cycleEventAt [⟨1, "trough"⟩, ⟨2, "peak"⟩]) (fun i => (["d0", "d1", "d2", "d3"] : List String).getD i "") (((10 : ℚ) + 5) / 10000) 2 (engineStep ({ cooldownDays := 0 } : TradeSettings) (indicatorLookup []) (indicatorLookup []) (cycleEventAt [⟨1, "trough"⟩, ⟨2, "peak"⟩]) (fun i => (["d0", "d1", "d2", "d3"] : List String).getD i "") (((10 : ℚ) + 5) / 10000) 2 initialEngineState 0 2 none) 1 1 (some 2) hi2 (by decide) (by rw [hi6]; decide)
  have hr2 : exitReasonOf ({ cooldownDays := 0 } : TradeSettings) (indicatorLookup [])
      (cycleEventAt [⟨1, "trough"⟩, ⟨2, "peak"⟩]) 2 1 (1 : ℚ) 2 =
      some "PEAK_CONFIRMED" := by decide
  obtain ⟨t, htr, hin, hxr, hxp, hxd, hed, hep, hsz, hhd, hgr, hnr⟩ :=
    engineStep_exitBar ({ cooldownDays := 0 } : TradeSettings) (indicatorLookup []) (indicatorLookup []) (cycleEventAt [⟨1, "trough"⟩, ⟨2, "peak"⟩]) (fun i => (["d0", "d1", "d2", "d3"] : List String).getD i "") (((10 : ℚ) + 5) / 10000) 2 (engineStep ({ cooldownDays := 0 } : TradeSettings) (indicatorLookup []) (indicatorLookup []) (cycleEventAt [⟨1, "trough"⟩, ⟨2, "peak"⟩]) (fun i => (["d0", "d1", "d2", "d3"] : List String).getD i "") (((10 : ℚ) + 5) / 10000) 2 (engineStep ({ cooldownDays := 0 } : TradeSettings) (indicatorLookup []) (indicatorLookup []) (cycleEventAt [⟨1, "trough"⟩, ⟨2, "peak"⟩]) (fun i => (["d0", "d1", "d2", "d3"] : List String).getD i "") (((10 : ℚ) + 5) / 10000) 2 initialEngineState 0 2 none) 1 1 (some 2)) 2 2 (some 1) 1 "PEAK_CONFIRMED" he2 he3
      (by rw [he4]; exact hr2) (by decide)
  obtain ⟨hj1, hj2, hj3, hj4, hj5, hj6⟩ :=
    engineStep_idleBar ({ cooldownDays := 0 } : TradeSettings) (indicatorLookup []) (indicatorLookup []) (cycleEventAt [⟨1, "trough"⟩, ⟨2, "peak"⟩]) (fun i => (["d0", "d1", "d2", "d3"] : List String).getD i "") (((10 : ℚ) + 5) / 10000) 2 (engineStep ({ cooldownDays := 0 } : TradeSettings) (indicatorLookup []) (indicatorLookup []) (cycleEventAt [⟨1, "trough"⟩, ⟨2, "peak"⟩]) (fun i => (["d0", "d1", "d2", "d3"] : List String).getD i "") (((10 : ℚ) + 5) / 10000) 2 (engineStep ({ cooldownDays := 0 } : TradeSettings) (indicatorLookup []) (indicatorLookup []) (cycleEventAt [⟨1, "trough"⟩, ⟨2, "peak"⟩]) (fun i => (["d0", "d1", "d2", "d3"] : List String).getD i "") (((10 : ℚ) + 5) / 10000) 2 (engineStep ({ cooldownDays := 0 } : TradeSettings) (indicatorLookup []) (indicatorLookup []) (cycleEventAt [⟨1, "trough"⟩, ⟨2, "peak"⟩]) (fun i => (["d0", "d1", "d2", "d3"] : List String).getD i "") (((10 : ℚ) + 5) / 10000) 2 initialEngineState 0 2 none) 1 1 (some 2)) 2 2 (some 1)) 3 1 (some 2) hin (by decide)
  refine ⟨t, ?_, hed.trans rfl, ?_, hxd.trans rfl, hxp, hxr⟩
  · rw [e1, engineLoop_cons, engineLoop_cons, engineLoop_cons, engineLoop_cons,
      engineLoop_nil]
    simp only [Nat.reduceAdd]
    rw [forcedExit_notIn _ _ _ _ hj2, hj1, htr, he1, hi1]
    rfl
  · rw [hep, he4]

/-- C4 counterexample: on a 3-bar series shaped trough-at-1, peak-at-2
(closes 2, 1, 2), `detect_cycles` detects only the trough — a turning point
needs a bar on both sides, so index 2 of a 3-bar series can never be a peak —
and the engine's single trade is closed by the end-of-data forced exit, not
with `PEAK_CONFIRMED` as the claim requires. -/
theorem tradeEngine_three_bar_forced_exit_cx :
    (detectCycles [⟨"d0", 2⟩, ⟨"d1", 1⟩, ⟨"d2", 2⟩]).2 = [⟨1, "trough"⟩] ∧
    ∃ t, (tradeEngineCycleBasic [⟨"d0", 2⟩, ⟨"d1", 1⟩, ⟨"d2", 2⟩]
        ((detectCycles [⟨"d0", 2⟩, ⟨"d1", 1⟩, ⟨"d2", 2⟩]).2.map
          (fun tp => ⟨tp.index, tp.kind⟩))
        [] [] { cooldownDays := 0 }).trades = [t] ∧
      t.exitReason = "FORCED_EXIT_END_OF_DATA" ∧ t.exitReason ≠ "PEAK_CONFIRMED" := by
  have htps : (detectCycles [⟨"d0", 2⟩, ⟨"d1", 1⟩, ⟨"d2", 2⟩]).2 = [⟨1, "trough"⟩] := by
    rw [detectCycles_eq]
    norm_num [findTurningPoints_eq, deltasOf, findTPAux, List.find?]
  refine ⟨htps, ?_⟩
  rw [htps]
  have hmap : ([⟨1, "trough"⟩] : List TurningPoint).map
      (fun tp => (⟨tp.index, tp.kind⟩ : TPRecord)) = [⟨1, "trough"⟩] := rfl
  rw [hmap]
  have e1 : (tradeEngineCycleBasic [⟨"d0", 2⟩, ⟨"d1", 1⟩, ⟨"d2", 2⟩] [⟨1, "trough"⟩]
      [] [] { cooldownDays := 0 }).trades =
    (forcedExit (fun i => (["d0", "d1", "d2"] : List String).getD i "")
      (((10 : ℚ) + 5) / 10000) [2, 1, 2]
      (engineLoop ({ cooldownDays := 0 } : TradeSettings) (indicatorLookup [])
        (indicatorLookup []) (cycleEventAt [⟨1, "trough"⟩])
        (fun i => (["d0", "d1", "d2"] : List String).getD i "")
        (((10 : ℚ) + 5) / 10000) 2 initialEngineState 0 none [2, 1, 2])).trades := rfl
  obtain ⟨hi1, hi2, hi3, hi4, hi5, hi6⟩ :=
    engineStep_idleBar ({ cooldownDays := 0 } : TradeSettings) (indicatorLookup []) (indicatorLookup []) (cycleEventAt [⟨1, "trough"⟩]) (fun i => (["d0", "d1", "d2"] : List String).getD i "") (((10 : ℚ) + 5) / 10000) 2 initialEngineState 0 2 none rfl (by decide)
  obtain ⟨he1, he2, he3, he4, he5⟩ :=
    engineStep_enterBar ({ cooldownDays := 0 } : TradeSettings) (indicatorLookup []) (indicatorLookup []) (cycleEventAt [⟨1, "trough"⟩]) (fun i => (["d0", "d1", "d2"] : List String).getD i "") (((10 : ℚ) + 5) / 10000) 2 (engineStep ({ cooldownDays := 0 } : TradeSettings) (indicatorLookup []) (indicatorLookup []) (cycleEventAt [⟨1, "trough"⟩]) (fun i => (["d0", "d1", "d2"] : List String).getD i "") (((10 : ℚ) + 5) / 10000) 2 initialEngineState 0 2 none) 1 1 (some 2) hi2 (by decide) (by rw [hi6]; decide)
  have hr2 : exitReasonOf ({ cooldownDays := 0 } : TradeSettings) (indicatorLookup [])
      (cycleEventAt [⟨1, "trough"⟩]) 2 1 (1 : ℚ) 2 = none := by decide
  obtain ⟨hh1, hh2, hh3, hh4, hh5⟩ :=
    engineStep_holdBar ({ cooldownDays := 0 } : TradeSettings) (indicatorLookup []) (indicatorLookup []) (cycleEventAt [⟨1, "trough"⟩]) (fun i => (["d0", "d1", "d2"] : List String).getD i "") (((10 : ℚ) + 5) / 10000) 2 (engineStep ({ cooldownDays := 0 } : TradeSettings) (indicatorLookup []) (indicatorLookup []) (cycleEventAt [⟨1, "trough"⟩]) (fun i => (["d0", "d1", "d2"] : List String).getD i "") (((10 : ℚ) + 5) / 10000) 2 (engineStep ({ cooldownDays := 0 } : TradeSettings) (indicatorLookup []) (indicatorLookup []) (cycleEventAt [⟨1, "trough"⟩]) (fun i => (["d0", "d1", "d2"] : List String).getD i "") (((10 : ℚ) + 5) / 10000) 2 initialEngineState 0 2 none) 1 1 (some 2)) 2 2 (some 1) 1 he2 he3 (by rw [he4]; exact hr2)
  obtain ⟨t, ftr, fxr, fed, fep, fsz, fxd, fxp, fgr, fnr⟩ :=
    forcedExit_trade (fun i => (["d0", "d1", "d2"] : List String).getD i "")
      (((10 : ℚ) + 5) / 10000) [2, 1, 2] _ 1 hh2 hh3
  refine ⟨t, ?_, fxr, ?_⟩
  · rw [e1, engineLoop_cons, engineLoop_cons, engineLoop_cons, engineLoop_nil]
    simp only [Nat.reduceAdd]
    rw [ftr, hh1, he1, hi1]
    rfl
  · rw [fxr]
    decide


end WhiteMetal
